import Mathlib

/-!
Verification of go-1.22-http-routing.

A shallow embedding of `main.go`: the middleware chain builder, the logging middleware with its
response wrapper, the bearer-token authentication gate, the route table and the composed server
handler, together with the properties of the specification that hold (or fail) on them.

Go strings are byte sequences, so they are lists of bytes here. A Go procedure with effects on the
response, the process-wide logger, the clock and the heap is a function `World → World`. The
embedding describes executions in which every call returns; a call that panics has no meaning.
The standard library (`strings`, `encoding/base64`, `context`, `net/url`, `path`, `net/http`) is
not part of the repository: the functions the program calls are embedded after the library of
Go 1.22, under the names they have there.
-/

namespace Routing

/-! ## Go strings -/

/-- A Go `byte`. -/
abbrev Byte := Fin 256

/-- A Go `string`: an immutable sequence of bytes. -/
abbrev GoString := List Byte

/-- The bytes of a string literal of the source (Go source text is UTF-8). -/
def go (s : String) : GoString :=
  (s.data.flatMap String.utf8EncodeChar).map (fun b => (b.val : Fin 256))

/-- Go `strings.HasPrefix(s, pre)`: `len(s) >= len(pre) && s[:len(pre)] == pre`. -/
def strings.HasPrefix (s pre : GoString) : Bool :=
  decide (pre.length ≤ s.length) && (s.take pre.length == pre)

/-- Go `strings.TrimPrefix(s, pre)`: `s` without the leading `pre`, and `s` itself when it does
not start with `pre`. -/
def strings.TrimPrefix (s pre : GoString) : GoString :=
  if strings.HasPrefix s pre then s.drop pre.length else s

/-! ## encoding/base64, the standard padded encoding -/

deriving instance DecidableEq for Except

/-- Go `base64.CorruptInputError`: the input offset at which decoding failed. -/
structure base64.CorruptInputError where
  offset : Nat
deriving DecidableEq, Repr

/-- The alphabet of `base64.StdEncoding` (RFC 4648, section 4). -/
def base64.encodeStd : GoString :=
  go "ABCDEFGHIJKLMNOPQRSTUVWXYZabcdefghijklmnopqrstuvwxyz0123456789+/"

/-- The padding character of `base64.StdEncoding`. -/
def base64.padChar : Byte := 61

/-- The table `enc.encode`, read at a 6-bit index. -/
def base64.encode (v : Nat) : Byte := base64.encodeStd.getD v 0

/-- The table `enc.decodeMap`: the index of `c` in the alphabet, and `0xff` for a byte outside
it. -/
def base64.decodeMap (c : Byte) : Nat :=
  let i := base64.encodeStd.indexOf c
  if i < 64 then i else 0xff

/-- Go `(*Encoding).EncodeToString` for `StdEncoding`: three source bytes give four characters;
a final block of one or two bytes gives two or three characters and is padded to four. -/
def base64.EncodeToString : List Byte → GoString
  | a :: b :: c :: rest =>
    let val := a.val <<< 16 ||| b.val <<< 8 ||| c.val
    base64.encode (val >>> 18 &&& 0x3F) :: base64.encode (val >>> 12 &&& 0x3F) ::
      base64.encode (val >>> 6 &&& 0x3F) :: base64.encode (val &&& 0x3F) ::
      base64.EncodeToString rest
  | [a, b] =>
    let val := a.val <<< 16 ||| b.val <<< 8
    [base64.encode (val >>> 18 &&& 0x3F), base64.encode (val >>> 12 &&& 0x3F),
      base64.encode (val >>> 6 &&& 0x3F), base64.padChar]
  | [a] =>
    let val := a.val <<< 16
    [base64.encode (val >>> 18 &&& 0x3F), base64.encode (val >>> 12 &&& 0x3F),
      base64.padChar, base64.padChar]
  | [] => []

/-- The byte conversion `byte(x)` of an unsigned value. -/
def toByte (x : Nat) : Byte := ⟨x % 256, Nat.mod_lt x (by decide)⟩

/-- The end of `decodeQuantum`: the 6-bit values collected in `dbuf` (missing ones are zero) are
packed into `val`, and the first `dlen - 1` of its three bytes are written, `dlen` being the
number of values collected. -/
def base64.quantumBytes (dbuf : List Nat) : List Byte :=
  let val := dbuf.getD 0 0 <<< 18 ||| dbuf.getD 1 0 <<< 12 ||| dbuf.getD 2 0 <<< 6 ||| dbuf.getD 3 0
  [toByte (val >>> 16), toByte (val >>> 8), toByte val].take (dbuf.length - 1)

/-- The loops of `decodeQuantum` that skip `\r` and `\n`: the input left and the new offset. -/
def base64.skipNewlines : List Byte → Nat → List Byte × Nat
  | c :: rest, si =>
    if c = 10 ∨ c = 13 then base64.skipNewlines rest (si + 1) else (c :: rest, si)
  | [], si => ([], si)

/-- Go `(*Encoding).Decode` for `StdEncoding` (padded, not strict), as the repetition of
`decodeQuantum`; the 8- and 4-character fast paths of the library give the same result and fall
back on `decodeQuantum` at the same offset when a character is not in the alphabet.
`len` is `len(src)`, the list is `src[si:]`, `dbuf` holds the values of the quantum being read
and `out` the bytes decoded so far. -/
def base64.decodeLoop (len : Nat) :
    List Byte → Nat → List Nat → List Byte → Except base64.CorruptInputError (List Byte)
  | [], si, dbuf, out =>
    -- end of input: fine between two quanta, corrupt inside one (the encoding is padded)
    if dbuf.length = 0 then .ok out else .error ⟨si - dbuf.length⟩
  | c :: rest, si, dbuf, out =>
    if base64.decodeMap c ≠ 0xff then
      let dbuf := dbuf ++ [base64.decodeMap c]
      if dbuf.length = 4 then
        base64.decodeLoop len rest (si + 1) [] (out ++ base64.quantumBytes dbuf)
      else
        base64.decodeLoop len rest (si + 1) dbuf out
    else if c = 10 ∨ c = 13 then
      base64.decodeLoop len rest (si + 1) dbuf out
    else if c ≠ base64.padChar then
      .error ⟨si⟩
    else
      -- padding: only after two or three characters of a quantum
      if dbuf.length < 2 then
        .error ⟨si⟩
      else if dbuf.length = 2 then
        -- a second padding character is expected
        match base64.skipNewlines rest (si + 1) with
        | ([], _) => .error ⟨len⟩
        | (d :: rest2, si2) =>
          if d ≠ base64.padChar then .error ⟨si2 - 1⟩
          else
            match base64.skipNewlines rest2 (si2 + 1) with
            | ([], _) => .ok (out ++ base64.quantumBytes dbuf)
            | (_ :: _, si3) => .error ⟨si3⟩
      else
        match base64.skipNewlines rest (si + 1) with
        | ([], _) => .ok (out ++ base64.quantumBytes dbuf)
        | (_ :: _, si2) => .error ⟨si2⟩

/-- Go `(*Encoding).DecodeString` for `StdEncoding`; the bytes decoded before an error are
dropped, as the caller reads them only when the error is nil. -/
def base64.DecodeString (s : GoString) : Except base64.CorruptInputError (List Byte) :=
  base64.decodeLoop s.length s 0 [] []

/-! ## context -/

/-- A Go interface value (`any`): a string, or a value of another dynamic type, given by a tag
for the type and one for the value. -/
inductive Any where
  | string (s : GoString)
  | other (type value : Nat)
deriving DecidableEq, Repr

/-- A Go `context.Context` as far as values go: the empty context and `valueCtx`. -/
inductive Context where
  | background
  | valueCtx (parent : Context) (key val : Any)
deriving DecidableEq, Repr

/-- Go `context.WithValue(parent, key, val)`. -/
def context.WithValue (parent : Context) (key val : Any) : Context := .valueCtx parent key val

/-- Go `ctx.Value(key)`: the value of the innermost `valueCtx` with this key, nil when there is
none. -/
def Context.Value : Context → Any → Option Any
  | .background, _ => none
  | .valueCtx parent k v, key => if k = key then some v else parent.Value key

/-- The type assertion `v.(string)` in its two-result form. -/
def assertString : Option Any → GoString × Bool
  | some (.string s) => (s, true)
  | _ => ([], false)

/-! ## net/http: requests -/

/-- The part of `url.URL` the program and the multiplexer read: the decoded path, and the
encoded path hint `RawPath`, which the parser of the request leaves empty when the path on the
wire is the default encoding of `Path`. -/
structure URL where
  Path : GoString
  RawPath : GoString := []
deriving DecidableEq, Repr

/-- Go `shouldEscape(c, encodePath)` of `net/url`: letters, digits, `-_.~` and `$&+,/:;=@` stay
as they are in a path, every other byte is percent-encoded. -/
def url.shouldEscape (c : Byte) : Bool :=
  if (97 ≤ c.val ∧ c.val ≤ 122) ∨ (65 ≤ c.val ∧ c.val ≤ 90) ∨ (48 ≤ c.val ∧ c.val ≤ 57) then false
  else if c ∈ go "-_.~" then false
  else if c ∈ go "$&+,/:;=@" then false
  else true

/-- The table `upperhex` of `net/url`. -/
def url.upperhex : GoString := go "0123456789ABCDEF"

/-- Go `escape(s, encodePath)`: each byte that must be escaped becomes `%XX`. -/
def url.escape (s : GoString) : GoString :=
  s.flatMap fun c =>
    if url.shouldEscape c then
      [37, url.upperhex.getD (c.val >>> 4) 0, url.upperhex.getD (c.val &&& 15) 0]
    else [c]

/-- Go `ishex`. -/
def url.ishex (c : Byte) : Bool :=
  (48 ≤ c.val ∧ c.val ≤ 57) ∨ (97 ≤ c.val ∧ c.val ≤ 102) ∨ (65 ≤ c.val ∧ c.val ≤ 70)

/-- Go `unhex`. -/
def url.unhex (c : Byte) : Nat :=
  if 48 ≤ c.val ∧ c.val ≤ 57 then c.val - 48
  else if 97 ≤ c.val ∧ c.val ≤ 102 then c.val - 97 + 10
  else if 65 ≤ c.val ∧ c.val ≤ 70 then c.val - 65 + 10
  else 0

/-- Go `unescape(s, mode)` for a path (`encodePath`, `encodePathSegment`): `%XX` becomes the
byte it encodes; a `%` that two hexadecimal digits do not follow is an error. -/
def url.unescape : GoString → Option GoString
  | [] => some []
  | c :: rest =>
    if c = 37 then
      match rest with
      | h1 :: h2 :: rest2 =>
        if url.ishex h1 ∧ url.ishex h2 then
          (url.unescape rest2).map fun t => toByte (url.unhex h1 <<< 4 ||| url.unhex h2) :: t
        else none
      | _ => none
    else (url.unescape rest).map fun t => c :: t

/-- Go `validEncoded(s, encodePath)`. -/
def url.validEncoded (s : GoString) : Bool :=
  s.all fun c => c ∈ go "!$&\x27()*+,;=:@" || c ∈ go "[]" || c = 37 || !url.shouldEscape c

/-- Go `(*URL).EscapedPath()`: `RawPath` when it is a valid encoding of `Path`, the default
encoding of `Path` otherwise. -/
def URL.EscapedPath (u : URL) : GoString :=
  if u.RawPath ≠ [] ∧ url.validEncoded u.RawPath ∧ url.unescape u.RawPath = some u.Path then
    u.RawPath
  else if u.Path = go "*" then go "*"
  else url.escape u.Path

/-- Go `(*URL).String()` of a URL that has a path only, as the multiplexer builds for a
redirection (the query it copies is not part of the model). -/
def URL.String (u : URL) : GoString := u.EscapedPath

/-- Go `pathUnescape` of `net/http`: the segment unescaped, or as it is when it is not a valid
encoding. -/
def pathUnescape (path : GoString) : GoString := (url.unescape path).getD path

/-- Go `http.Header`: canonical header names with their values. -/
abbrev Header := List (GoString × List GoString)

/-- Go `Header.Get(key)` at a key in canonical form (as `Authorization` is): the first value of
the header, the empty string when there is none. -/
def Header.Get (h : Header) (key : GoString) : GoString :=
  match h.lookup key with
  | some (v :: _) => v
  | _ => []

/-- The part of `http.Request` the program reads. -/
structure Request where
  Method : GoString
  URL : URL
  Header : Header
  ctx : Context
deriving DecidableEq, Repr

/-- Go `r.Context()`. -/
def Request.Context (r : Request) : Context := r.ctx

/-- Go `r.WithContext(ctx)`: a copy of `r` with the context replaced; `r` is not changed. -/
def Request.WithContext (r : Request) (ctx : Routing.Context) : Request := { r with ctx := ctx }

/-! ## The world a handler acts on -/

/-- One operand of a `log.Println` call. -/
inductive LogArg where
  | str (s : GoString)
  | int (n : Int)
  | err (e : base64.CorruptInputError)
  | dur (d : Int)
deriving DecidableEq, Repr

/-- One record of the standard logger: the operands of the call that wrote it. -/
abbrev LogRecord := List LogArg

/-- The state of the response of the connection: whether the header is committed, the status
sent, and the body bytes written after it (also for a HEAD request, whose body the server does
not put on the wire). -/
structure response where
  wroteHeader : Bool
  status : Int
  body : List Byte
deriving DecidableEq, Repr

/-- What a request can change: the response of the connection, the standard logger, the clock
(the readings it will give, in nanoseconds, one for each time it is read), and the heap cells
holding the `statusCode` field of the `wrappedWriter`s allocated so far. -/
structure World where
  resp : response
  log : List LogRecord
  clock : List Int
  heap : List Int
deriving DecidableEq, Repr

/-- The response as the server hands it to the handler: nothing written. -/
def response.fresh : response := { wroteHeader := false, status := 0, body := [] }

/-- Go `time.Now()`: the next reading of the clock. -/
def time.Now (s : World) : Int × World := (s.clock.headD 0, { s with clock := s.clock.tail })

/-- Go `time.Since(t)`: `time.Now().Sub(t)`. -/
def time.Since (t : Int) (s : World) : Int × World := ((time.Now s).1 - t, (time.Now s).2)

/-- Go `log.Println(v...)` on the standard logger: one more record. -/
def log.Println (v : LogRecord) (s : World) : World := { s with log := s.log ++ [v] }

/-- Go `http.ResponseWriter`, the methods the program calls. -/
structure ResponseWriter where
  WriteHeader : Int → World → World
  Write : GoString → World → World

/-- Go `http.Handler`: `ServeHTTP(w, r)`. -/
abbrev Handler := ResponseWriter → Request → World → World

/-- `http.StatusOK`. -/
def http.StatusOK : Int := 200
/-- `http.StatusMovedPermanently`. -/
def http.StatusMovedPermanently : Int := 301
/-- `http.StatusBadRequest`. -/
def http.StatusBadRequest : Int := 400
/-- `http.StatusUnauthorized`. -/
def http.StatusUnauthorized : Int := 401
/-- `http.StatusNotFound`. -/
def http.StatusNotFound : Int := 404
/-- `http.StatusMethodNotAllowed`. -/
def http.StatusMethodNotAllowed : Int := 405

/-- Go `http.StatusText`, at the codes that occur in this program; the other rows of the
library table are left out. -/
def http.StatusText (code : Int) : GoString :=
  if code = 200 then go "OK"
  else if code = 301 then go "Moved Permanently"
  else if code = 400 then go "Bad Request"
  else if code = 401 then go "Unauthorized"
  else if code = 404 then go "Not Found"
  else if code = 405 then go "Method Not Allowed"
  else []

/-- The record the server logs when `WriteHeader` is called on a committed response (the text
is followed by the caller in the library). -/
def superfluousWriteHeader : LogRecord :=
  [.str (go "http: superfluous response.WriteHeader call")]

/-- The server-side `(*response).WriteHeader`: the first call with a final status commits the
header; a later call is logged as superfluous and changes nothing; an informational status
(1xx other than 101) is sent without committing the header. On a response not yet committed
the library panics (`checkWriteHeaderCode`) when the code is outside 100..999: such a call does
not return, the embedding gives it no effect, and every property that passes codes of its own
to the writer assumes them in 100..999. -/
def response.WriteHeader (code : Int) (s : World) : World :=
  if s.resp.wroteHeader then log.Println superfluousWriteHeader s
  else if code < 100 ∨ 999 < code then s
  else if 100 ≤ code ∧ code ≤ 199 ∧ code ≠ 101 then s
  else { s with resp := { s.resp with wroteHeader := true, status := code } }

/-- Go `bodyAllowedForStatus`. -/
def bodyAllowedForStatus (status : Int) : Bool :=
  if 100 ≤ status ∧ status ≤ 199 then false
  else if status = 204 then false
  else if status = 304 then false
  else true

/-- The server-side `(*response).Write`: an implicit `WriteHeader(200)` when the header is not
committed yet, then the data joins the body when the status allows one. -/
def response.Write (data : GoString) (s : World) : World :=
  let s1 := if s.resp.wroteHeader then s else response.WriteHeader http.StatusOK s
  if data.length = 0 then s1
  else if !bodyAllowedForStatus s1.resp.status then s1
  else { s1 with resp := { s1.resp with body := s1.resp.body ++ data } }

/-- The response writer the server passes to the root handler. -/
def serverWriter : ResponseWriter := { WriteHeader := response.WriteHeader, Write := response.Write }

/-- Go `fmt.Fprintf(w, format)` with a format without verbs: one `Write` of the text. -/
def fmt.Fprintf (w : ResponseWriter) (format : GoString) (s : World) : World := w.Write format s

/-! ## main.go -/

/-- `(*routeHandler).IndexAll`. -/
def routeHandler.IndexAll : Handler := fun w _ s => fmt.Fprintf w (go "Index all\n") s

/-- `(*routeHandler).ShowByID`. -/
def routeHandler.ShowByID : Handler := fun w _ s => fmt.Fprintf w (go "Show by ID\n") s

/-- `(*routeHandler).Create`. -/
def routeHandler.Create : Handler := fun w _ s => fmt.Fprintf w (go "Create new\n") s

/-- `(*routeHandler).UpdateyID`. -/
def routeHandler.UpdateyID : Handler := fun w _ s => fmt.Fprintf w (go "Update by ID\n") s

/-- `(*routeHandler).DeleteByID`. -/
def routeHandler.DeleteByID : Handler := fun w _ s => fmt.Fprintf w (go "Destroy by ID\n") s

/-- `type wrappedWriter struct { http.ResponseWriter; statusCode int }`, as a pointer: the
embedded writer, and the heap cell of the `statusCode` field. -/
structure wrappedWriter where
  ResponseWriter : ResponseWriter
  statusCode : Nat

/-- `type Middleware func(http.Handler) http.Handler`. -/
abbrev Middleware := Handler → Handler

/-- The loop of `ChainMiddlewares`, `for i := len(xs) - 1; i >= 0; i-- { next = xs[i](next) }`,
with `k = i + 1` iterations left. -/
def ChainMiddlewares.loop (xs : List Middleware) : Nat → Handler → Handler
  | 0, next => next
  | i + 1, next => ChainMiddlewares.loop xs i ((xs.getD i id) next)

/-- `ChainMiddlewares(xs...)`. -/
def ChainMiddlewares (xs : List Middleware) : Middleware :=
  fun next => ChainMiddlewares.loop xs xs.length next

/-- `(*wrappedWriter).WriteHeader`: the call goes to the embedded writer, then the field is
assigned. -/
def wrappedWriter.WriteHeader (w : wrappedWriter) (statusCode : Int) (s : World) : World :=
  let s1 := w.ResponseWriter.WriteHeader statusCode s
  { s1 with heap := s1.heap.set w.statusCode statusCode }

/-- A `*wrappedWriter` as an `http.ResponseWriter`: `WriteHeader` is its own method, `Write` is
promoted from the embedded writer. -/
def wrappedWriter.toWriter (w : wrappedWriter) : Routing.ResponseWriter :=
  { WriteHeader := w.WriteHeader, Write := w.ResponseWriter.Write }

/-- The value of the field `w.statusCode`. -/
def wrappedWriter.read (w : wrappedWriter) (s : World) : Int := s.heap.getD w.statusCode 0

/-- `Logging`. -/
def Logging (next : Handler) : Handler := fun w r s =>
  let start := (time.Now s).1
  let s0 := (time.Now s).2
  let wrapped : wrappedWriter := { ResponseWriter := w, statusCode := s0.heap.length }
  let s1 := { s0 with heap := s0.heap ++ [http.StatusOK] }
  let s2 := next wrapped.toWriter r s1
  log.Println [.str (go "Middleware Log:"), .int (wrapped.read s2), .str r.Method,
    .str r.URL.Path, .dur (time.Since start s2).1] (time.Since start s2).2

/-- `const AuthUserID`. -/
def AuthUserID : GoString := go "middleware.auth.userID"

/-- `writeUnauthed`. -/
def writeUnauthed (w : ResponseWriter) (s : World) : World :=
  w.Write (http.StatusText http.StatusUnauthorized) (w.WriteHeader http.StatusUnauthorized s)

/-- The statements of `IsAuthenticated` that follow `next.ServeHTTP(w, req)`: the identity is
read from the context of `r`, the request that came in. -/
def IsAuthenticated.checkUser (w : ResponseWriter) (r : Request) (s : World) : World :=
  let (userID, ok) := assertString (r.Context.Value (.string AuthUserID))
  let s1 :=
    if !ok then w.WriteHeader http.StatusBadRequest (log.Println [.str (go "Invalid user ID")] s)
    else s
  log.Println [.str (go "Creating comment for user:"), .str userID] s1

/-- `IsAuthenticated`. -/
def IsAuthenticated (next : Handler) : Handler := fun w r s =>
  let authorization := r.Header.Get (go "Authorization")
  if !strings.HasPrefix authorization (go "Bearer ") then
    writeUnauthed w s
  else
    let encodedToken := strings.TrimPrefix authorization (go "Bearer ")
    match base64.DecodeString encodedToken with
    | .error err =>
      log.Println [.str (go "Invalid encodedToken characters, padding or length:"), .err err]
        (writeUnauthed w s)
    | .ok token =>
      let userID := token
      let ctx := context.WithValue r.Context (.string AuthUserID) (.string userID)
      let req := r.WithContext ctx
      IsAuthenticated.checkUser w r (next w req s)

/-! ## net/http: the request multiplexer of Go 1.22

The library is not part of the repository; what follows is the behaviour it documents (package
`net/http`, `ServeMux`: patterns, precedence, "sanitizing the URL request path ... redirecting any
request containing . or .. segments or repeated slashes to an equivalent, cleaner URL", trailing
slash redirection) for patterns without a host. The multiplexer matches the escaped path of the
request, `URL.EscapedPath()`, segment by segment, each segment unescaped; headers of the
response and the query of the URL are not part of the model. -/

/-- Go `http.Error(w, error, code)`: the status, then the message and a newline. -/
def http.Error (w : ResponseWriter) (error : GoString) (code : Int) (s : World) : World :=
  w.Write (error ++ go "\n") (w.WriteHeader code s)

/-- Go `http.NotFound`. -/
def http.NotFound : Handler := fun w _ s => http.Error w (go "404 page not found") http.StatusNotFound s

/-- Go `htmlEscape`. -/
def http.htmlEscape (s : GoString) : GoString :=
  s.flatMap fun c =>
    if c = 38 then go "&amp;"
    else if c = 60 then go "&lt;"
    else if c = 62 then go "&gt;"
    else if c = 34 then go "&#34;"
    else if c = 39 then go "&#39;"
    else [c]

/-- Go `http.Redirect(w, r, url, code)` for a target that is a clean rooted path, as the
multiplexer passes: the status, and for a GET request a short HTML body. -/
def http.Redirect (url : GoString) (code : Int) : Handler := fun w r s =>
  let s1 := w.WriteHeader code s
  if r.Method = go "GET" then
    w.Write (go "<a href=\"" ++ http.htmlEscape url ++ go "\">" ++ http.StatusText code ++
      go "</a>.\n" ++ go "\n") s1
  else s1

/-- The inner loop of the `..` case of `path.Clean`: `for out.w > dotdot && out[out.w] != '/'`,
with `dotdot = 1` as the path is rooted. -/
def path.backtrackLoop (out : GoString) : Nat → Nat
  | 0 => 0
  | w + 1 => if 1 < w + 1 ∧ out.getD (w + 1) 0 ≠ 47 then path.backtrackLoop out w else w + 1

/-- The `..` case of `path.Clean` on a rooted path: the last element of the output goes, when
there is one. -/
def path.backtrack (out : GoString) : GoString :=
  if 1 < out.length then out.take (path.backtrackLoop out (out.length - 1)) else out

/-- Where the scan of `path.Clean` stands: at `path[r]` in the outer loop, inside a real element
being copied, or on the second dot of a `..` element. -/
inductive path.Scan where
  | outer
  | copy
  | dotdot
deriving DecidableEq, Repr

/-- The main loop of `path.Clean` on a rooted path; the list is `path[r:]`. -/
def path.cleanLoop : path.Scan → List Byte → GoString → GoString
  | _, [], out => out
  | .copy, c :: t, out =>
    if c = 47 then path.cleanLoop .outer t out else path.cleanLoop .copy t (out ++ [c])
  | .dotdot, _ :: t, out => path.cleanLoop .outer t out
  | .outer, c :: t, out =>
    if c = 47 then
      -- empty path element
      path.cleanLoop .outer t out
    else if c = 46 ∧ (t = [] ∨ t.head? = some 47) then
      -- . element
      path.cleanLoop .outer t out
    else if c = 46 ∧ t.head? = some 46 ∧ (t.drop 1 = [] ∨ (t.drop 1).head? = some 47) then
      -- .. element: remove to last /
      path.cleanLoop .dotdot t (path.backtrack out)
    else
      -- real path element: add slash if needed, copy element
      path.cleanLoop .copy t ((if out.length ≠ 1 then out ++ [47] else out) ++ [c])

/-- Go `path.Clean` on a rooted path. -/
def path.Clean (p : GoString) : GoString := path.cleanLoop .outer (p.drop 1) [47]

/-- Go `cleanPath` of `net/http`: the canonical path, a trailing slash being kept. -/
def cleanPath (p : GoString) : GoString :=
  if p = [] then go "/"
  else
    let p := if p.head? ≠ some 47 then 47 :: p else p
    let np := path.Clean p
    if p.getLast? = some 47 ∧ np ≠ go "/" then
      if p.length = np.length + 1 ∧ strings.HasPrefix p np then p else np ++ go "/"
    else np

/-- A segment of a pattern: a literal, a wildcard for one segment, or a wildcard for the rest of
the path (the one a trailing slash stands for has no name). -/
inductive segment where
  | lit (s : GoString)
  | wild (name : GoString)
  | multi (name : GoString)
deriving DecidableEq, Repr

/-- A parsed pattern: the text it was registered with, the method (empty for any) and the
segments of the path. -/
structure pattern where
  str : GoString
  method : GoString
  segments : List segment
deriving DecidableEq, Repr

/-- One segment of a pattern, parsed: `{$}` is the literal `/`, `{name...}` a multi wildcard,
`{name}` a wildcard, anything else a literal. -/
def parseSegment (seg : GoString) : segment :=
  if seg = go "\x7b$\x7d" then .lit (go "/")
  else if seg.head? = some 123 ∧ seg.getLast? = some 125 then
    let name := (seg.drop 1).take (seg.length - 2)
    if 3 ≤ name.length ∧ name.drop (name.length - 3) = go "..." then .multi (name.take (name.length - 3))
    else .wild name
  else .lit (pathUnescape seg)

/-- The segments of the path of a pattern; a trailing slash is an anonymous multi wildcard. -/
def parseSegments : List GoString → List segment
  | [] => []
  | [seg] => if seg = [] then [.multi []] else [parseSegment seg]
  | seg :: rest => parseSegment seg :: parseSegments rest

/-- Go `parsePattern` on a well-formed pattern `[METHOD ]/PATH` without a host: the method is
what precedes the first space, the path is cut at its slashes. (The library panics when a
malformed pattern is registered.) -/
def parsePattern (s : GoString) : pattern :=
  let i := s.indexOf 32
  let method := if i < s.length then s.take i else []
  let rest := if i < s.length then (s.drop (i + 1)).dropWhile (fun c => c = 32 ∨ c = 9) else s
  { str := s, method := method, segments := parseSegments ((rest.drop 1).splitOn 47) }

/-- Go `firstSegment`: the first segment of a path that begins with a slash, unescaped, and the
rest; a path that is only a slash is the segment `/`. -/
def firstSegment (path : GoString) : GoString × GoString :=
  if path = go "/" then (go "/", [])
  else
    let p := path.drop 1
    (pathUnescape (p.takeWhile (fun c => c ≠ 47)), p.dropWhile (fun c => c ≠ 47))

/-- Go `(*routingNode).matchPath` for one pattern: literals are compared with the segments of
the path, a wildcard takes one segment that is not a trailing slash, a multi wildcard the rest
of the path. -/
def matchPath : List segment → GoString → Bool
  | [], path => path = []
  | seg :: segs, path =>
    if path = [] then false
    else
      match seg with
      | .lit t => (firstSegment path).1 = t && matchPath segs (firstSegment path).2
      | .wild _ => (firstSegment path).1 ≠ go "/" && matchPath segs (firstSegment path).2
      | .multi _ => true

/-- Go `http.ServeMux`: the registered patterns with their handlers. -/
structure ServeMux where
  entries : List (pattern × Handler)

/-- Go `http.NewServeMux()`. -/
def http.NewServeMux : ServeMux := { entries := [] }

/-- Go `(*ServeMux).Handle(pattern, handler)`. -/
def ServeMux.Handle (mux : ServeMux) (pat : GoString) (handler : Handler) : ServeMux :=
  { entries := mux.entries ++ [(parsePattern pat, handler)] }

/-- Go `(*ServeMux).HandleFunc(pattern, handler)`. -/
def ServeMux.HandleFunc (mux : ServeMux) (pat : GoString) (handler : Handler) : ServeMux :=
  mux.Handle pat handler

/-- The first entry registered for `method` whose path pattern matches. -/
def ServeMux.matchMethod (mux : ServeMux) (method path : GoString) : Option (pattern × Handler) :=
  mux.entries.find? fun e => e.1.method = method && matchPath e.1.segments path

/-- Go `(*routingNode).matchMethodAndPath`: a pattern with the method of the request, else for
HEAD a pattern with GET, else a pattern without a method. Among the patterns of one method the
library takes the most specific one; here the first registered stands for it, which is the same
whenever at most one of them matches, as in this program (`v1_at_most_one_match`; the main
router has a single pattern). -/
def ServeMux.matchMethodAndPath (mux : ServeMux) (method path : GoString) :
    Option (pattern × Handler) :=
  match (if method = [] then none else mux.matchMethod method path) with
  | some e => some e
  | none =>
    match (if method = go "HEAD" then mux.matchMethod (go "GET") path else none) with
    | some e => some e
    | none => mux.matchMethod [] path

/-- Go `exactMatch`: a match is exact unless a multi wildcard took a non-empty rest. -/
def exactMatch (n : Option (pattern × Handler)) (path : GoString) : Bool :=
  match n with
  | none => false
  | some e =>
    match e.1.segments.getLast? with
    | some (.multi _) =>
      if path.getLast?.isSome ∧ path.getLast? ≠ some 47 then false
      else e.1.segments.length = path.count 47
    | _ => true

/-- Go `(*ServeMux).matchOrRedirect`: the match, or the target of the redirection to the path
with a trailing slash when only that one is matched exactly. `redirect` says whether that
redirection is tried. -/
def ServeMux.matchOrRedirect (mux : ServeMux) (method path : GoString) (redirect : Bool)
    (urlPath : GoString) : Option (pattern × Handler) × Option GoString :=
  let n := mux.matchMethodAndPath method path
  if !exactMatch n path && redirect then
    if exactMatch (mux.matchMethodAndPath method (path ++ go "/")) (path ++ go "/") then
      (none, some (URL.String { Path := cleanPath urlPath ++ go "/" }))
    else (n, none)
  else (n, none)

/-- Go `(*ServeMux).matchingMethods`: whether a pattern with some method matches the path, or
the path with a trailing slash. -/
def ServeMux.matchingMethods (mux : ServeMux) (path : GoString) : List GoString :=
  let methodsOf (p : GoString) :=
    (mux.entries.filter fun e => e.1.method ≠ [] && matchPath e.1.segments p).map fun e => e.1.method
  methodsOf path ++ (if path.getLast? = some 47 then [] else methodsOf (path ++ go "/"))

/-- Go `(*ServeMux).findHandler`: the escaped path is cleaned (not for CONNECT); a request for
an unclean path, or for a path matched only with a trailing slash added, is redirected; without
a match the answer is 405 when another method is registered for the path, 404 otherwise. -/
def ServeMux.findHandler (mux : ServeMux) (r : Request) : Handler :=
  let escapedPath := r.URL.EscapedPath
  if r.Method = go "CONNECT" then
    match (mux.matchOrRedirect r.Method escapedPath true r.URL.Path).2 with
    | some u => http.Redirect u http.StatusMovedPermanently
    | none =>
      match (mux.matchOrRedirect r.Method escapedPath false r.URL.Path).1 with
      | some e => e.2
      | none =>
        if (mux.matchingMethods escapedPath).length > 0 then
          fun w _ s => http.Error w (http.StatusText http.StatusMethodNotAllowed) http.StatusMethodNotAllowed s
        else http.NotFound
  else
    let path := cleanPath escapedPath
    match mux.matchOrRedirect r.Method path true r.URL.Path with
    | (_, some u) => http.Redirect u http.StatusMovedPermanently
    | (n, none) =>
      if path ≠ escapedPath then
        http.Redirect (URL.String { Path := path }) http.StatusMovedPermanently
      else
        match n with
        | some e => e.2
        | none =>
          if (mux.matchingMethods path).length > 0 then
            fun w _ s => http.Error w (http.StatusText http.StatusMethodNotAllowed) http.StatusMethodNotAllowed s
          else http.NotFound

/-- Go `(*ServeMux).ServeHTTP`. -/
def ServeMux.ServeHTTP (mux : ServeMux) : Handler := fun w r s => mux.findHandler r w r s

/-- Go `http.StripPrefix(pre, h)`: `h` serves a copy of the request whose `Path` and `RawPath`
have lost the leading `pre`; a request whose `Path`, or whose non-empty `RawPath`, does not
begin with it is answered 404. -/
def http.StripPrefix (pre : GoString) (h : Handler) : Handler :=
  if pre = [] then h
  else fun w r s =>
    let p := strings.TrimPrefix r.URL.Path pre
    let rp := strings.TrimPrefix r.URL.RawPath pre
    if p.length < r.URL.Path.length ∧ (r.URL.RawPath = [] ∨ rp.length < r.URL.RawPath.length) then
      h w { r with URL := { Path := p, RawPath := rp } } s
    else http.NotFound w r s

/-! ## main -/

/-- The multiplexer `v1` of `main`, with its ten routes. -/
def main.v1 : ServeMux :=
  http.NewServeMux
    |>.HandleFunc (go "GET /listing/{id}") routeHandler.ShowByID
    |>.HandleFunc (go "GET /listings") routeHandler.IndexAll
    |>.HandleFunc (go "GET /vote/{id}") routeHandler.ShowByID
    |>.HandleFunc (go "GET /votes") routeHandler.IndexAll
    |>.HandleFunc (go "PUT /listing/{id}") routeHandler.UpdateyID
    |>.HandleFunc (go "PUT /vote/{id}") routeHandler.UpdateyID
    |>.HandleFunc (go "POST /listing") routeHandler.Create
    |>.HandleFunc (go "POST /vote") routeHandler.Create
    |>.HandleFunc (go "DELETE /listing/{id}") routeHandler.DeleteByID
    |>.HandleFunc (go "DELETE /vote/{id}") routeHandler.DeleteByID

/-- The value `chainMiddlewares` of `main`. -/
def main.chainMiddlewares : Middleware := ChainMiddlewares [Logging, IsAuthenticated]

/-- The value `wrappedV1` of `main`. -/
def main.wrappedV1 : Handler := main.chainMiddlewares main.v1.ServeHTTP

/-- The value `mainRouter` of `main`. -/
def main.mainRouter : ServeMux :=
  http.NewServeMux.Handle (go "/v1/") (http.StripPrefix (go "/v1") main.wrappedV1)

/-- The server at work on one request: the handler of the server, `mainRouter`, is called with
the response of the connection, on which nothing is written yet. -/
def main.serve (r : Request) (s : World) : World :=
  main.mainRouter.ServeHTTP serverWriter r { s with resp := response.fresh }

/-! ## Handlers used to state the properties -/

/-- A handler that calls `WriteHeader(c)` for each `c` of `codes`, in order. -/
def writeHeaders (codes : List Int) : Handler := fun w _ s =>
  codes.foldl (fun st c => w.WriteHeader c st) s

/-- The field `statusCode` of the wrapper `Logging` creates in world `s` around the writer of
the server, read after the calls `WriteHeader(c)` for `c` in `codes`. -/
def statusCodeAfter (codes : List Int) (s : World) : Int :=
  let wrapped : wrappedWriter := { ResponseWriter := serverWriter, statusCode := s.heap.length }
  wrapped.read (codes.foldl (fun st c => wrapped.WriteHeader c st)
    { s with heap := s.heap ++ [http.StatusOK] })

/-- The record `Logging` writes for request `r`. -/
def middlewareLog (status : Int) (r : Request) (elapsed : Int) : LogRecord :=
  [.str (go "Middleware Log:"), .int status, .str r.Method, .str r.URL.Path, .dur elapsed]

/-- The record `IsAuthenticated` writes when the token does not decode. -/
def decodeErrorLog (e : base64.CorruptInputError) : LogRecord :=
  [.str (go "Invalid encodedToken characters, padding or length:"), .err e]

/-- A request with the given method, path (`RawPath` empty), `Authorization` header (if any)
and context. -/
def request (method path : String) (authorization : Option String) (ctx : Context) : Request :=
  { Method := go method, URL := { Path := go path },
    Header :=
      match authorization with
      | some a => [(go "Authorization", [go a])]
      | none => [],
    ctx := ctx }

/-- A world in which nothing has happened. -/
def World.initial : World := { resp := response.fresh, log := [], clock := [], heap := [] }

/-- A request whose own context already holds an identity under `AuthUserID`, as the one an
outer `IsAuthenticated` passes on. -/
def identifiedRequest : Request :=
  request "GET" "/listings" (some "Bearer YQ==")
    (context.WithValue .background (.string AuthUserID) (.string (go "alice")))

/-- The world after the chain `[Logging, IsAuthenticated]` around `h` has served `r` on the
writer of the server. -/
def chainServe (h : Handler) (r : Request) (s : World) : World :=
  ChainMiddlewares [Logging, IsAuthenticated] h serverWriter r s

/-- The time `Logging` measures when nothing in between reads the clock: the difference of its
two readings. -/
def elapsed (s : World) : Int := s.clock.tail.headD 0 - s.clock.headD 0

/-- A request with the given method, path, headers and context; the `RawPath` of its URL is
empty, as it is when the path came in its default encoding. -/
def requestTo (method : String) (path : GoString) (header : Header) (ctx : Context) : Request :=
  { Method := go method, URL := { Path := path }, Header := header, ctx := ctx }

/-- The response a client gets from a handler that only writes the text `body`: status 200
and that body. -/
def sent (body : String) : response := { wroteHeader := true, status := 200, body := go body }

/-- The headers of a request that carries the token of the source. -/
def tokenHeader : Header := [(go "Authorization", [go "Bearer bXlTZWNyZXRUb2tlbjEyMw=="])]

/-! ## Auxiliary results -/

theorem ChainMiddlewares.loop_eq_foldr (xs : List Middleware) :
    ∀ (k : Nat), k ≤ xs.length → ∀ next : Handler,
      ChainMiddlewares.loop xs k next = (xs.take k).foldr (fun m acc => m acc) next := by
  intro k
  induction k with
  | zero => intro _ next; simp [ChainMiddlewares.loop]
  | succ k ih =>
    intro hk next
    have hlt : k < xs.length := hk
    have htake : xs.take (k + 1) = xs.take k ++ [xs.getD k id] := by
      rw [List.take_succ, List.getD_eq_getElem?_getD, List.getElem?_eq_getElem hlt]
      rfl
    rw [ChainMiddlewares.loop, ih (Nat.le_of_lt hlt), htake, List.foldr_append]
    rfl

theorem strings.HasPrefix_append (pre x : GoString) :
    strings.HasPrefix (pre ++ x) pre = true := by
  simp [strings.HasPrefix]

theorem strings.TrimPrefix_append (pre x : GoString) : strings.TrimPrefix (pre ++ x) pre = x := by
  simp [strings.TrimPrefix, strings.HasPrefix_append]

theorem Header.Get_absent (h : Header) (key : GoString) (habs : h.lookup key = none) :
    Header.Get h key = [] := by
  simp [Header.Get, habs]

theorem writeUnauthed_fresh (s : World) (hs : s.resp = response.fresh) :
    writeUnauthed serverWriter s =
      { s with resp := { wroteHeader := true, status := 401, body := go "Unauthorized" } } := by
  obtain ⟨resp, lg, clock, heap⟩ := s
  simp only at hs
  subst hs
  rfl

theorem IsAuthenticated_of_decoded (next : Handler) (w : ResponseWriter) (r : Request)
    (s : World) (X b : GoString)
    (hauth : r.Header.Get (go "Authorization") = go "Bearer " ++ X)
    (hdec : base64.DecodeString X = .ok b) :
    IsAuthenticated next w r s =
      IsAuthenticated.checkUser w r
        (next w (r.WithContext (context.WithValue r.Context (.string AuthUserID) (.string b))) s) := by
  simp [IsAuthenticated, hauth, strings.HasPrefix_append, strings.TrimPrefix_append, hdec]

theorem or_eq_add_of_dvd (n x y : Nat) (hx : 2 ^ n ∣ x) (hy : y < 2 ^ n) : x ||| y = x + y := by
  obtain ⟨k, rfl⟩ := hx
  exact (Nat.mul_add_lt_is_or hy k).symm

theorem pack3 (a b c : Nat) (hb : b < 256) (hc : c < 256) :
    a <<< 16 ||| b <<< 8 ||| c = a * 65536 + b * 256 + c := by
  have h1 : a <<< 16 ||| b <<< 8 = a * 65536 + b * 256 := by
    rw [or_eq_add_of_dvd 16 _ _ ⟨a, by rw [Nat.shiftLeft_eq]; ring⟩
      (by rw [Nat.shiftLeft_eq]; omega)]
    simp [Nat.shiftLeft_eq]
  rw [h1, or_eq_add_of_dvd 8 _ _ ⟨a * 256 + b, by ring⟩ (by omega)]

theorem pack4 (v0 v1 v2 v3 : Nat) (h1 : v1 < 64) (h2 : v2 < 64) (h3 : v3 < 64) :
    v0 <<< 18 ||| v1 <<< 12 ||| v2 <<< 6 ||| v3 = v0 * 262144 + v1 * 4096 + v2 * 64 + v3 := by
  have e1 : v0 <<< 18 ||| v1 <<< 12 = v0 * 262144 + v1 * 4096 := by
    rw [or_eq_add_of_dvd 18 _ _ ⟨v0, by rw [Nat.shiftLeft_eq]; ring⟩
      (by rw [Nat.shiftLeft_eq]; omega)]
    simp [Nat.shiftLeft_eq]
  have e2 : v0 * 262144 + v1 * 4096 ||| v2 <<< 6 = v0 * 262144 + v1 * 4096 + v2 * 64 := by
    rw [or_eq_add_of_dvd 12 _ _ ⟨v0 * 64 + v1, by ring⟩ (by rw [Nat.shiftLeft_eq]; omega)]
    simp [Nat.shiftLeft_eq]
  rw [e1, e2, or_eq_add_of_dvd 6 _ _ ⟨v0 * 4096 + v1 * 64 + v2, by ring⟩ (by omega)]

theorem and_63 (x : Nat) : x &&& 0x3F = x % 64 := Nat.and_pow_two_sub_one_eq_mod x 6

theorem base64.decodeMap_encode_fin : ∀ v : Fin 64, base64.decodeMap (base64.encode v.val) = v.val := by
  decide

theorem base64.decodeMap_encode (v : Nat) (hv : v < 64) :
    base64.decodeMap (base64.encode v) = v :=
  base64.decodeMap_encode_fin ⟨v, hv⟩

theorem base64.decodeLoop_valid (len : Nat) (c : Byte) (rest : List Byte) (si : Nat)
    (dbuf : List Nat) (out : List Byte) (hc : base64.decodeMap c < 64) :
    base64.decodeLoop len (c :: rest) si dbuf out =
      if (dbuf ++ [base64.decodeMap c]).length = 4 then
        base64.decodeLoop len rest (si + 1) []
          (out ++ base64.quantumBytes (dbuf ++ [base64.decodeMap c]))
      else base64.decodeLoop len rest (si + 1) (dbuf ++ [base64.decodeMap c]) out := by
  have hne : base64.decodeMap c ≠ 0xff := by omega
  rw [base64.decodeLoop]
  simp only [hne, ne_eq, not_false_eq_true, if_true]

theorem base64.decodeLoop_encode (len : Nat) (v : Nat) (hv : v < 64) (rest : List Byte) (si : Nat)
    (dbuf : List Nat) (out : List Byte) :
    base64.decodeLoop len (base64.encode v :: rest) si dbuf out =
      if (dbuf ++ [v]).length = 4 then
        base64.decodeLoop len rest (si + 1) [] (out ++ base64.quantumBytes (dbuf ++ [v]))
      else base64.decodeLoop len rest (si + 1) (dbuf ++ [v]) out := by
  have h := base64.decodeLoop_valid len (base64.encode v) rest si dbuf out
    (by rw [base64.decodeMap_encode v hv]; exact hv)
  rw [base64.decodeMap_encode v hv] at h
  exact h

theorem base64.quantumBytes_full (a b c : Byte) :
    base64.quantumBytes
      [(a.val <<< 16 ||| b.val <<< 8 ||| c.val) >>> 18 &&& 0x3F,
       (a.val <<< 16 ||| b.val <<< 8 ||| c.val) >>> 12 &&& 0x3F,
       (a.val <<< 16 ||| b.val <<< 8 ||| c.val) >>> 6 &&& 0x3F,
       (a.val <<< 16 ||| b.val <<< 8 ||| c.val) &&& 0x3F] = [a, b, c] := by
  have ha := a.isLt
  have hb := b.isLt
  have hc := c.isLt
  rw [pack3 _ _ _ hb hc]
  simp only [base64.quantumBytes, and_63, Nat.shiftRight_eq_div_pow, List.getD_cons_zero,
    List.getD_cons_succ, List.length_cons, List.length_nil]
  rw [pack4 _ _ _ _ (Nat.mod_lt _ (by decide)) (Nat.mod_lt _ (by decide)) (Nat.mod_lt _ (by decide))]
  simp only [toByte, List.take, Nat.reduceAdd, Nat.reduceSub, Nat.reducePow]
  refine congrArg₂ _ (Fin.ext ?_) (congrArg₂ _ (Fin.ext ?_) (congrArg₂ _ (Fin.ext ?_) rfl))
  all_goals simp only []; omega

theorem base64.quantumBytes_two (a b : Byte) :
    base64.quantumBytes
      [(a.val <<< 16 ||| b.val <<< 8) >>> 18 &&& 0x3F,
       (a.val <<< 16 ||| b.val <<< 8) >>> 12 &&& 0x3F,
       (a.val <<< 16 ||| b.val <<< 8) >>> 6 &&& 0x3F] = [a, b] := by
  have ha := a.isLt
  have hb := b.isLt
  have h : a.val <<< 16 ||| b.val <<< 8 = a.val * 65536 + b.val * 256 := by
    have h0 := pack3 a.val b.val 0 hb (Nat.zero_lt_succ _)
    simpa using h0
  rw [h]
  simp only [base64.quantumBytes, List.getD_cons_zero, List.getD_cons_succ, List.length_cons,
    List.length_nil, List.getD_nil]
  rw [pack4 _ _ _ _ (by rw [and_63]; exact Nat.mod_lt _ (Nat.zero_lt_succ _))
    (by rw [and_63]; exact Nat.mod_lt _ (Nat.zero_lt_succ _)) (Nat.zero_lt_succ _)]
  simp only [and_63, Nat.shiftRight_eq_div_pow, toByte, List.take, Nat.reduceAdd, Nat.reduceSub,
    Nat.reducePow]
  refine congrArg₂ _ (Fin.ext ?_) (congrArg₂ _ (Fin.ext ?_) rfl)
  all_goals simp only []; omega

theorem base64.quantumBytes_one (a : Byte) :
    base64.quantumBytes
      [(a.val <<< 16) >>> 18 &&& 0x3F, (a.val <<< 16) >>> 12 &&& 0x3F] = [a] := by
  have ha := a.isLt
  simp only [base64.quantumBytes, List.getD_cons_zero, List.getD_cons_succ, List.length_cons,
    List.length_nil, List.getD_nil]
  rw [pack4 _ _ _ _ (by rw [and_63]; exact Nat.mod_lt _ (Nat.zero_lt_succ _))
    (Nat.zero_lt_succ _) (Nat.zero_lt_succ _)]
  simp only [and_63, Nat.shiftRight_eq_div_pow, Nat.shiftLeft_eq, toByte, List.take,
    Nat.reduceAdd, Nat.reduceSub, Nat.reducePow]
  refine congrArg₂ _ (Fin.ext ?_) rfl
  simp only []; omega

theorem base64.decodeLoop_pad_three (len si : Nat) (dbuf : List Nat) (out : List Byte)
    (h : dbuf.length = 3) :
    base64.decodeLoop len [base64.padChar] si dbuf out = .ok (out ++ base64.quantumBytes dbuf) := by
  rw [base64.decodeLoop]
  have h1 : base64.decodeMap base64.padChar = 0xff := by decide
  have h2 : ¬ (base64.padChar = 10 ∨ base64.padChar = 13) := by decide
  simp [h1, h2, h, base64.skipNewlines]

theorem base64.decodeLoop_pad_two (len si : Nat) (dbuf : List Nat) (out : List Byte)
    (h : dbuf.length = 2) :
    base64.decodeLoop len [base64.padChar, base64.padChar] si dbuf out =
      .ok (out ++ base64.quantumBytes dbuf) := by
  rw [base64.decodeLoop]
  have h1 : base64.decodeMap base64.padChar = 0xff := by decide
  have h2 : ¬ (base64.padChar = 10 ∨ base64.padChar = 13) := by decide
  simp [h1, h2, h, base64.skipNewlines]

theorem base64.decodeLoop_EncodeToString (len : Nat) (u : List Byte) :
    ∀ (si : Nat) (out : List Byte),
      base64.decodeLoop len (base64.EncodeToString u) si [] out = .ok (out ++ u) := by
  induction u using base64.EncodeToString.induct with
  | case1 a b c rest ih =>
    intro si out
    simp only [base64.EncodeToString]
    rw [base64.decodeLoop_encode _ _ (by rw [and_63]; exact Nat.mod_lt _ (by decide)),
      if_neg (by simp),
      base64.decodeLoop_encode _ _ (by rw [and_63]; exact Nat.mod_lt _ (by decide)),
      if_neg (by simp),
      base64.decodeLoop_encode _ _ (by rw [and_63]; exact Nat.mod_lt _ (by decide)),
      if_neg (by simp),
      base64.decodeLoop_encode _ _ (by rw [and_63]; exact Nat.mod_lt _ (by decide)),
      if_pos (by simp)]
    simp only [List.nil_append, List.cons_append]
    rw [base64.quantumBytes_full, ih]
    simp
  | case2 a b =>
    intro si out
    simp only [base64.EncodeToString]
    rw [base64.decodeLoop_encode _ _ (by rw [and_63]; exact Nat.mod_lt _ (by decide)),
      if_neg (by simp),
      base64.decodeLoop_encode _ _ (by rw [and_63]; exact Nat.mod_lt _ (by decide)),
      if_neg (by simp),
      base64.decodeLoop_encode _ _ (by rw [and_63]; exact Nat.mod_lt _ (by decide)),
      if_neg (by simp)]
    simp only [List.nil_append, List.cons_append]
    rw [base64.decodeLoop_pad_three _ _ _ _ (by simp), base64.quantumBytes_two]
  | case3 a =>
    intro si out
    simp only [base64.EncodeToString]
    rw [base64.decodeLoop_encode _ _ (by rw [and_63]; exact Nat.mod_lt _ (by decide)),
      if_neg (by simp),
      base64.decodeLoop_encode _ _ (by rw [and_63]; exact Nat.mod_lt _ (by decide)),
      if_neg (by simp)]
    simp only [List.nil_append, List.cons_append]
    rw [base64.decodeLoop_pad_two _ _ _ _ (by simp), base64.quantumBytes_one]
  | case4 =>
    intro si out
    simp [base64.EncodeToString, base64.decodeLoop]

theorem base64.DecodeString_EncodeToString (u : List Byte) :
    base64.DecodeString (base64.EncodeToString u) = .ok u := by
  unfold base64.DecodeString
  rw [base64.decodeLoop_EncodeToString]
  rfl

theorem Context.Value_withValue (ctx : Context) (key val : Any) :
    (context.WithValue ctx key val).Value key = some val := by
  simp [context.WithValue, Context.Value]

theorem heap_cell_set (heap : List Int) (x y d : Int) :
    ((heap ++ [x]).set heap.length y).getD heap.length d = y := by
  simp [List.getD_eq_getElem?_getD, List.getElem?_set]

theorem heap_set_last (heap : List Int) (x y : Int) :
    (heap ++ [x]).set heap.length y = heap ++ [y] := by
  induction heap with
  | nil => rfl
  | cons a t ih => simp [List.set, ih]

theorem Logging_of_writeUnauthed (next : Handler) (r : Request) (s : World)
    (extra : List LogRecord)
    (hnext : ∀ (w : ResponseWriter) (st : World),
      next w r st = { writeUnauthed w st with log := (writeUnauthed w st).log ++ extra })
    (hfresh : s.resp.wroteHeader = false) :
    Logging next serverWriter r s =
      { resp := { wroteHeader := true, status := 401, body := s.resp.body ++ go "Unauthorized" },
        log := s.log ++ extra ++ [middlewareLog 401 r (elapsed s)],
        clock := s.clock.tail.tail,
        heap := s.heap ++ [401] } := by
  obtain ⟨⟨wh, st, body⟩, lg, clock, heap⟩ := s
  simp only at hfresh
  subst hfresh
  have hU : go "Unauthorized" ≠ [] := by decide
  simp only [Logging, hnext]
  simp [writeUnauthed, wrappedWriter.toWriter, wrappedWriter.WriteHeader, serverWriter,
    response.WriteHeader, response.Write, time.Now, time.Since, log.Println, wrappedWriter.read,
    http.StatusUnauthorized, http.StatusOK, http.StatusText, bodyAllowedForStatus, middlewareLog,
    elapsed, heap_cell_set, heap_set_last, hU]


theorem IsAuthenticated_of_no_bearer (next : Handler) (w : ResponseWriter) (r : Request)
    (s : World)
    (h : strings.HasPrefix (r.Header.Get (go "Authorization")) (go "Bearer ") = false) :
    IsAuthenticated next w r s = writeUnauthed w s := by
  simp [IsAuthenticated, h]

theorem IsAuthenticated_of_decode_error (next : Handler) (w : ResponseWriter) (r : Request)
    (s : World) (X : GoString) (e : base64.CorruptInputError)
    (hauth : r.Header.Get (go "Authorization") = go "Bearer " ++ X)
    (hdec : base64.DecodeString X = .error e) :
    IsAuthenticated next w r s = log.Println (decodeErrorLog e) (writeUnauthed w s) := by
  simp [IsAuthenticated, hauth, strings.HasPrefix_append, strings.TrimPrefix_append, hdec,
    decodeErrorLog]

theorem chainServe_eq (h : Handler) (r : Request) (s : World) :
    chainServe h r s = Logging (IsAuthenticated h) serverWriter r s := rfl

theorem response.WriteHeader_heap (code : Int) (s : World) :
    (response.WriteHeader code s).heap = s.heap := by
  unfold response.WriteHeader log.Println
  split_ifs <;> rfl

theorem wrappedWriter.read_WriteHeader (a : Nat) (c : Int) (st : World) (ha : a < st.heap.length) :
    a < ((wrappedWriter.mk serverWriter a).WriteHeader c st).heap.length ∧
    (wrappedWriter.mk serverWriter a).read ((wrappedWriter.mk serverWriter a).WriteHeader c st) =
      c := by
  simp only [wrappedWriter.WriteHeader, wrappedWriter.read, serverWriter,
    response.WriteHeader_heap, List.length_set]
  refine ⟨ha, ?_⟩
  simp [List.getD_eq_getElem?_getD, List.getElem?_set, ha]

theorem wrappedWriter.read_foldl (a : Nat) (codes : List Int) :
    ∀ st : World, a < st.heap.length →
      (wrappedWriter.mk serverWriter a).read
          (codes.foldl (fun st c => (wrappedWriter.mk serverWriter a).WriteHeader c st) st) =
        codes.getLast?.getD ((wrappedWriter.mk serverWriter a).read st) := by
  induction codes with
  | nil => intro st _; rfl
  | cons c cs ih =>
    intro st ha
    have h := wrappedWriter.read_WriteHeader a c st ha
    rw [List.foldl_cons, ih _ h.1, h.2]
    cases cs <;> simp [List.getLast?]

theorem path.cleanLoop_copy (t : List Byte) :
    ∀ out : GoString, (47 : Byte) ∉ t → path.cleanLoop .copy t out = out ++ t := by
  induction t with
  | nil => intro out _; simp [path.cleanLoop]
  | cons c t ih =>
    intro out h
    have hc : c ≠ 47 := fun hc => h (hc ▸ List.mem_cons_self _ _)
    have ht : (47 : Byte) ∉ t := fun ht => h (List.mem_cons_of_mem _ ht)
    rw [path.cleanLoop, if_neg hc, ih _ ht]
    simp

theorem path.cleanLoop_element (id : GoString) (out : GoString) (hne : id ≠ [])
    (hslash : (47 : Byte) ∉ id) (hdot : id ≠ go ".") (hdotdot : id ≠ go "..") :
    path.cleanLoop .outer id out = (if out.length ≠ 1 then out ++ [47] else out) ++ id := by
  have e1 : go "." = [46] := by decide
  have e2 : go ".." = [46, 46] := by decide
  rw [e1] at hdot
  rw [e2] at hdotdot
  cases id with
  | nil => exact absurd rfl hne
  | cons c t =>
    have hc : c ≠ 47 := fun hc => hslash (hc ▸ List.mem_cons_self _ _)
    have ht : (47 : Byte) ∉ t := fun ht => hslash (List.mem_cons_of_mem _ ht)
    have h1 : ¬ (c = 46 ∧ (t = [] ∨ t.head? = some 47)) := by
      rintro ⟨rfl, h | h⟩
      · exact hdot (by rw [h])
      · cases t with
        | nil => simp at h
        | cons d t => simp at h; exact ht (h ▸ List.mem_cons_self _ _)
    have h2 : ¬ (c = 46 ∧ t.head? = some 46 ∧ (t.drop 1 = [] ∨ (t.drop 1).head? = some 47)) := by
      rintro ⟨rfl, h, h3⟩
      cases t with
      | nil => simp at h
      | cons d t =>
        simp at h
        subst h
        rcases h3 with h3 | h3
        · simp at h3; exact hdotdot (by rw [h3])
        · cases t with
          | nil => simp at h3
          | cons e t =>
            simp at h3
            exact ht (h3 ▸ List.mem_cons_of_mem _ (List.mem_cons_self _ _))
    rw [path.cleanLoop, if_neg hc, if_neg h1, if_neg h2, path.cleanLoop_copy _ _ ht]
    simp

theorem getLast?_append_ne_slash (pre id : GoString) (hne : id ≠ [])
    (hslash : (47 : Byte) ∉ id) : (pre ++ id).getLast? ≠ some 47 := by
  rw [List.getLast?_append_of_ne_nil _ hne]
  intro h
  exact hslash (List.mem_of_getLast?_eq_some h)

theorem cleanPath_element (pre base id : GoString)
    (hclean : path.Clean (pre ++ id) = path.cleanLoop .outer id base)
    (hbase : base ++ [47] = pre) (hlen : base.length ≠ 1)
    (hhead : (pre ++ id).head? = some 47)
    (hne : id ≠ []) (hslash : (47 : Byte) ∉ id) (hdot : id ≠ go ".") (hdotdot : id ≠ go "..") :
    cleanPath (pre ++ id) = pre ++ id := by
  have hc : path.Clean (pre ++ id) = pre ++ id := by
    rw [hclean, path.cleanLoop_element id _ hne hslash hdot hdotdot, if_pos hlen, hbase]
  have hl := getLast?_append_ne_slash pre id hne hslash
  have hnil : pre ++ id ≠ [] := by
    intro h
    exact hne (List.append_eq_nil.mp h).2
  have hh : ¬ ((pre ++ id).head? ≠ some 47) := fun h => h hhead
  unfold cleanPath
  simp only [if_neg hnil, if_neg hh, hc]
  rw [if_neg (fun h => hl h.1)]

theorem url.escape_cons (c : Byte) (t : GoString) :
    url.escape (c :: t) = url.escape [c] ++ url.escape t := by
  simp [url.escape]

theorem url.escape_append (a b : GoString) :
    url.escape (a ++ b) = url.escape a ++ url.escape b := by
  simp [url.escape, List.flatMap_append]

theorem url.unescape_cons_of_ne (c : Byte) (rest : GoString) (hc : c ≠ 37) :
    url.unescape (c :: rest) = (url.unescape rest).map fun t => c :: t := by
  rcases rest with _ | ⟨h1, _ | ⟨h2, rest2⟩⟩ <;> simp [url.unescape, hc]

theorem url.unescape_percent (h1 h2 : Byte) (rest : GoString)
    (hx1 : url.ishex h1 = true) (hx2 : url.ishex h2 = true) :
    url.unescape (37 :: h1 :: h2 :: rest) =
      (url.unescape rest).map fun t => toByte (url.unhex h1 <<< 4 ||| url.unhex h2) :: t := by
  simp [url.unescape, hx1, hx2]

set_option maxRecDepth 100000 in
theorem url.unescape_escape_byte :
    ∀ c : Byte,
      (url.shouldEscape c = false ∧ c ≠ 37 ∧ url.escape [c] = [c]) ∨
      (∃ h1 h2 : Byte, url.escape [c] = [37, h1, h2] ∧ url.ishex h1 = true ∧
        url.ishex h2 = true ∧ toByte (url.unhex h1 <<< 4 ||| url.unhex h2) = c) := by
  intro c
  by_cases h : url.shouldEscape c = true
  · refine Or.inr ⟨url.upperhex.getD (c.val >>> 4) 0, url.upperhex.getD (c.val &&& 15) 0, ?_, ?_⟩
    · simp [url.escape, h]
    · revert c
      decide
  · refine Or.inl ⟨by simpa using h, ?_, ?_⟩
    · intro hc
      subst hc
      exact h (by decide)
    · simp [url.escape, h]

theorem url.unescape_escape (s : GoString) : url.unescape (url.escape s) = some s := by
  induction s with
  | nil => rfl
  | cons c t ih =>
    rw [url.escape_cons]
    rcases url.unescape_escape_byte c with ⟨_, hc, he⟩ | ⟨h1, h2, he, hx1, hx2, hb⟩
    · rw [he]
      show url.unescape (c :: url.escape t) = some (c :: t)
      rw [url.unescape_cons_of_ne c _ hc, ih]
      rfl
    · rw [he]
      show url.unescape (37 :: h1 :: h2 :: url.escape t) = some (c :: t)
      rw [url.unescape_percent h1 h2 _ hx1 hx2, ih, hb]
      rfl

set_option maxRecDepth 100000 in
theorem url.escape_no_slash (s : GoString) (h : (47 : Byte) ∉ s) :
    (47 : Byte) ∉ url.escape s := by
  have hbyte : ∀ c : Byte, c ≠ 47 → (47 : Byte) ∉ url.escape [c] := by decide
  induction s with
  | nil => exact List.not_mem_nil _
  | cons c t ih =>
    rw [url.escape_cons]
    intro hm
    rcases List.mem_append.mp hm with hm | hm
    · exact hbyte c (fun hc => h (hc ▸ List.mem_cons_self _ _)) hm
    · exact ih (fun ht => h (List.mem_cons_of_mem _ ht)) hm

theorem url.escape_injective (s t : GoString) (h : url.escape s = url.escape t) : s = t := by
  have h1 := url.unescape_escape s
  rw [h, url.unescape_escape t] at h1
  exact (Option.some.inj h1).symm

theorem url.escape_element (id : GoString) (hne : id ≠ []) (hslash : (47 : Byte) ∉ id)
    (hdot : id ≠ go ".") (hdotdot : id ≠ go "..") :
    url.escape id ≠ [] ∧ (47 : Byte) ∉ url.escape id ∧ url.escape id ≠ go "." ∧
      url.escape id ≠ go ".." ∧ pathUnescape (url.escape id) ≠ go "/" := by
  refine ⟨?_, url.escape_no_slash id hslash, ?_, ?_, ?_⟩
  · intro h
    exact hne (url.escape_injective id [] (by rw [h]; rfl))
  · intro h
    exact hdot (url.escape_injective id (go ".") (by rw [h]; decide))
  · intro h
    exact hdotdot (url.escape_injective id (go "..") (by rw [h]; decide))
  · intro h
    rw [pathUnescape, url.unescape_escape] at h
    have h2 : id = go "/" := h
    rw [h2] at hslash
    exact hslash (by decide)

theorem URL.EscapedPath_of_path (pre id : GoString) (hpre : url.escape pre = pre)
    (hhead : pre.head? = some 47) :
    URL.EscapedPath { Path := pre ++ id } = pre ++ url.escape id := by
  have hstar : pre ++ id ≠ go "*" := by
    intro h
    cases pre with
    | nil => simp at hhead
    | cons c t =>
      simp only [List.head?_cons, Option.some.injEq] at hhead
      subst hhead
      have h2 : go "*" = [42] := by decide
      rw [h2] at h
      exact absurd (List.cons.inj h).1 (by decide)
  unfold URL.EscapedPath
  rw [if_neg (fun h => h.1 rfl), if_neg hstar, url.escape_append, hpre]

theorem firstSegment_single (id : GoString) (hne : id ≠ []) (hslash : (47 : Byte) ∉ id) :
    firstSegment (47 :: id) = (pathUnescape id, []) := by
  have h1 : ¬ (47 :: id = go "/") := by
    intro h
    have : id = [] := by
      have h2 : go "/" = [47] := by decide
      rw [h2] at h
      exact (List.cons.inj h).2
    exact hne this
  have hall : ∀ c ∈ id, (decide (c ≠ 47)) = true := by
    intro c hc
    exact decide_eq_true (fun h => hslash (h ▸ hc))
  unfold firstSegment
  rw [if_neg h1]
  simp only [List.drop_succ_cons, List.drop_zero]
  rw [List.takeWhile_eq_self_iff.mpr hall, List.dropWhile_eq_nil_iff.mpr hall]

theorem matchPath_wild_single (name id : GoString) (hne : id ≠ [])
    (hslash : (47 : Byte) ∉ id) (hun : pathUnescape id ≠ go "/") :
    matchPath [.wild name] (47 :: id) = true := by
  simp [matchPath, firstSegment_single id hne hslash, hun]

theorem v1_matchMethod_GET_listing (id : GoString) (hne : id ≠ [])
    (hslash : (47 : Byte) ∉ id) (hun : pathUnescape id ≠ go "/") :
    main.v1.matchMethod (go "GET") (go "/listing/" ++ id) =
      some (parsePattern (go "GET /listing/{id}"), routeHandler.ShowByID) := by
  have hp : (decide ((parsePattern (go "GET /listing/{id}")).method = go "GET") &&
      matchPath (parsePattern (go "GET /listing/{id}")).segments (go "/listing/" ++ id)) =
      matchPath [.wild (go "id")] (47 :: id) := rfl
  unfold ServeMux.matchMethod
  exact List.find?_cons_of_pos _ (by rw [hp]; exact matchPath_wild_single _ id hne hslash hun)

theorem v1_matchMethod_GET_vote (id : GoString) (hne : id ≠ [])
    (hslash : (47 : Byte) ∉ id) (hun : pathUnescape id ≠ go "/") :
    main.v1.matchMethod (go "GET") (go "/vote/" ++ id) =
      some (parsePattern (go "GET /vote/{id}"), routeHandler.ShowByID) := by
  have hp : (decide ((parsePattern (go "GET /vote/{id}")).method = go "GET") &&
      matchPath (parsePattern (go "GET /vote/{id}")).segments (go "/vote/" ++ id)) =
      matchPath [.wild (go "id")] (47 :: id) := rfl
  unfold ServeMux.matchMethod
  iterate 2
    refine (List.find?_cons_of_neg _ (show ¬ (false = true) from Bool.false_ne_true)).trans ?_
  exact List.find?_cons_of_pos _ (by rw [hp]; exact matchPath_wild_single _ id hne hslash hun)

theorem v1_matchMethod_PUT_listing (id : GoString) (hne : id ≠ [])
    (hslash : (47 : Byte) ∉ id) (hun : pathUnescape id ≠ go "/") :
    main.v1.matchMethod (go "PUT") (go "/listing/" ++ id) =
      some (parsePattern (go "PUT /listing/{id}"), routeHandler.UpdateyID) := by
  have hp : (decide ((parsePattern (go "PUT /listing/{id}")).method = go "PUT") &&
      matchPath (parsePattern (go "PUT /listing/{id}")).segments (go "/listing/" ++ id)) =
      matchPath [.wild (go "id")] (47 :: id) := rfl
  unfold ServeMux.matchMethod
  iterate 4
    refine (List.find?_cons_of_neg _ (show ¬ (false = true) from Bool.false_ne_true)).trans ?_
  exact List.find?_cons_of_pos _ (by rw [hp]; exact matchPath_wild_single _ id hne hslash hun)

theorem v1_matchMethod_PUT_vote (id : GoString) (hne : id ≠ [])
    (hslash : (47 : Byte) ∉ id) (hun : pathUnescape id ≠ go "/") :
    main.v1.matchMethod (go "PUT") (go "/vote/" ++ id) =
      some (parsePattern (go "PUT /vote/{id}"), routeHandler.UpdateyID) := by
  have hp : (decide ((parsePattern (go "PUT /vote/{id}")).method = go "PUT") &&
      matchPath (parsePattern (go "PUT /vote/{id}")).segments (go "/vote/" ++ id)) =
      matchPath [.wild (go "id")] (47 :: id) := rfl
  unfold ServeMux.matchMethod
  iterate 5
    refine (List.find?_cons_of_neg _ (show ¬ (false = true) from Bool.false_ne_true)).trans ?_
  exact List.find?_cons_of_pos _ (by rw [hp]; exact matchPath_wild_single _ id hne hslash hun)

theorem v1_matchMethod_DELETE_listing (id : GoString) (hne : id ≠ [])
    (hslash : (47 : Byte) ∉ id) (hun : pathUnescape id ≠ go "/") :
    main.v1.matchMethod (go "DELETE") (go "/listing/" ++ id) =
      some (parsePattern (go "DELETE /listing/{id}"), routeHandler.DeleteByID) := by
  have hp : (decide ((parsePattern (go "DELETE /listing/{id}")).method = go "DELETE") &&
      matchPath (parsePattern (go "DELETE /listing/{id}")).segments (go "/listing/" ++ id)) =
      matchPath [.wild (go "id")] (47 :: id) := rfl
  unfold ServeMux.matchMethod
  iterate 8
    refine (List.find?_cons_of_neg _ (show ¬ (false = true) from Bool.false_ne_true)).trans ?_
  exact List.find?_cons_of_pos _ (by rw [hp]; exact matchPath_wild_single _ id hne hslash hun)

theorem v1_matchMethod_DELETE_vote (id : GoString) (hne : id ≠ [])
    (hslash : (47 : Byte) ∉ id) (hun : pathUnescape id ≠ go "/") :
    main.v1.matchMethod (go "DELETE") (go "/vote/" ++ id) =
      some (parsePattern (go "DELETE /vote/{id}"), routeHandler.DeleteByID) := by
  have hp : (decide ((parsePattern (go "DELETE /vote/{id}")).method = go "DELETE") &&
      matchPath (parsePattern (go "DELETE /vote/{id}")).segments (go "/vote/" ++ id)) =
      matchPath [.wild (go "id")] (47 :: id) := rfl
  unfold ServeMux.matchMethod
  iterate 9
    refine (List.find?_cons_of_neg _ (show ¬ (false = true) from Bool.false_ne_true)).trans ?_
  exact List.find?_cons_of_pos _ (by rw [hp]; exact matchPath_wild_single _ id hne hslash hun)

theorem response_Write_fresh (text : GoString) (htext : text ≠ []) (s : World)
    (hs : s.resp = response.fresh) :
    response.Write text s =
      { s with resp := { wroteHeader := true, status := 200, body := text } } := by
  obtain ⟨resp, lg, clock, heap⟩ := s
  simp only at hs
  subst hs
  have hl : text.length ≠ 0 := fun h => htext (List.length_eq_zero.mp h)
  simp [response.Write, response.WriteHeader, response.fresh, http.StatusOK, hl,
    bodyAllowedForStatus]

theorem checkUser_resp_of_committed (a : Nat) (r : Request) (st : World)
    (hst : st.resp.wroteHeader = true) :
    (IsAuthenticated.checkUser (wrappedWriter.mk serverWriter a).toWriter r st).resp =
      st.resp := by
  unfold IsAuthenticated.checkUser
  cases hok : (assertString (r.Context.Value (.string AuthUserID))).2 <;>
    simp [hok, log.Println, wrappedWriter.toWriter, wrappedWriter.WriteHeader, serverWriter,
      response.WriteHeader, hst]

theorem Logging_IsAuthenticated_write (H : Handler) (text : GoString) (r : Request) (s : World)
    (X b : GoString)
    (hauth : r.Header.Get (go "Authorization") = go "Bearer " ++ X)
    (hdec : base64.DecodeString X = .ok b) (htext : text ≠ [])
    (hH : ∀ (w : ResponseWriter) (ctx : Context) (st : World),
      H w (r.WithContext ctx) st = w.Write text st)
    (hfresh : s.resp = response.fresh) :
    (Logging (IsAuthenticated H) serverWriter r s).resp =
      { wroteHeader := true, status := 200, body := text } := by
  unfold Logging
  simp only [log.Println, time.Since, time.Now]
  rw [IsAuthenticated_of_decoded H _ r _ X b hauth hdec, hH, checkUser_resp_of_committed]
  · simp only [wrappedWriter.toWriter, serverWriter]
    rw [response_Write_fresh text htext _ (by exact hfresh)]
  · simp only [wrappedWriter.toWriter, serverWriter]
    rw [response_Write_fresh text htext _ (by exact hfresh)]


theorem findHandler_of_exact (mux : ServeMux) (r : Request) (e : pattern × Handler)
    (hc : r.Method ≠ go "CONNECT") (h0 : r.Method ≠ [])
    (hclean : cleanPath r.URL.EscapedPath = r.URL.EscapedPath)
    (hmatch : mux.matchMethod r.Method r.URL.EscapedPath = some e)
    (hexact : exactMatch (some e) r.URL.EscapedPath = true) :
    mux.findHandler r = e.2 := by
  unfold ServeMux.findHandler ServeMux.matchOrRedirect ServeMux.matchMethodAndPath
  simp [hc, h0, hclean, hmatch, hexact]

theorem findHandler_of_subtree (mux : ServeMux) (r : Request) (e e2 : pattern × Handler)
    (hc : r.Method ≠ go "CONNECT")
    (hclean : cleanPath r.URL.EscapedPath = r.URL.EscapedPath)
    (hmatch : mux.matchMethodAndPath r.Method r.URL.EscapedPath = some e)
    (hmatch2 : mux.matchMethodAndPath r.Method (r.URL.EscapedPath ++ go "/") = some e2)
    (hexact : exactMatch (some e) r.URL.EscapedPath = false)
    (hexact2 : exactMatch (some e2) (r.URL.EscapedPath ++ go "/") = false) :
    mux.findHandler r = e.2 := by
  unfold ServeMux.findHandler ServeMux.matchOrRedirect
  simp [hc, hclean, hmatch, hmatch2, hexact, hexact2]

theorem exactMatch_multi_false (e : pattern × Handler) (path name : GoString)
    (hlast : e.1.segments.getLast? = some (.multi name))
    (hcount : e.1.segments.length ≠ path.count 47) :
    exactMatch (some e) path = false := by
  unfold exactMatch
  simp only [hlast]
  split_ifs
  · rfl
  · exact decide_eq_false hcount

theorem StripPrefix_v1 (h : Handler) (w : ResponseWriter) (r : Request) (s : World)
    (q : GoString) (hpath : r.URL.Path = go "/v1" ++ q) (hraw : r.URL.RawPath = []) :
    http.StripPrefix (go "/v1") h w r s = h w { r with URL := { Path := q } } s := by
  have hne : go "/v1" ≠ [] := by decide
  have hlen : (go "/v1").length = 3 := by decide
  have htrim : strings.TrimPrefix [] (go "/v1") = [] := by decide
  unfold http.StripPrefix
  rw [if_neg hne]
  simp only [hpath, hraw, htrim, strings.TrimPrefix_append, List.length_append, hlen]
  split_ifs with hcond
  · rfl
  · exact absurd ⟨by omega, Or.inl trivial⟩ hcond

theorem count_slash_append (pre id : GoString) (hslash : (47 : Byte) ∉ id) :
    (pre ++ id).count 47 = pre.count 47 ∧ (pre ++ id ++ go "/").count 47 = pre.count 47 + 1 := by
  have h0 : id.count 47 = 0 := List.count_eq_zero.mpr hslash
  have h1 : (go "/").count (47 : Byte) = 1 := by decide
  simp [List.count_append, h0, h1]

theorem mainRouter_findHandler (r : Request) (pre base id : GoString)
    (hc : r.Method ≠ go "CONNECT")
    (hesc : r.URL.EscapedPath = pre ++ id)
    (hclean : path.Clean (pre ++ id) = path.cleanLoop .outer id base)
    (hbase : base ++ [47] = pre) (hlen : base.length ≠ 1)
    (hhead : (pre ++ id).head? = some 47)
    (hcount : pre.count 47 = 3)
    (hmatch : main.mainRouter.matchMethod [] (pre ++ id) =
      some (parsePattern (go "/v1/"), http.StripPrefix (go "/v1") main.wrappedV1))
    (hmatch2 : main.mainRouter.matchMethod [] (pre ++ id ++ go "/") =
      some (parsePattern (go "/v1/"), http.StripPrefix (go "/v1") main.wrappedV1))
    (hne : id ≠ []) (hslash : (47 : Byte) ∉ id) (hdot : id ≠ go ".") (hdotdot : id ≠ go "..") :
    main.mainRouter.findHandler r = http.StripPrefix (go "/v1") main.wrappedV1 := by
  have hother : ∀ (m p : GoString), m ≠ [] → main.mainRouter.matchMethod m p = none := by
    intro m p hm
    unfold ServeMux.matchMethod
    refine (List.find?_cons_of_neg _ ?_).trans rfl
    have hme : (parsePattern (go "/v1/")).method = [] := by decide
    show ¬ ((decide ((parsePattern (go "/v1/")).method = m) && _) = true)
    rw [hme]
    simp [Ne.symm hm]
  have hall : ∀ (m p : GoString), main.mainRouter.matchMethodAndPath m p =
      main.mainRouter.matchMethod [] p := by
    intro m p
    unfold ServeMux.matchMethodAndPath
    have hH : ¬ (([] : GoString) = go "HEAD") := by decide
    by_cases hm : m = []
    · subst hm
      simp [hH]
    · simp [hm, hother m p hm, hother (go "GET") p (by decide)]
  have hcnt := count_slash_append pre id hslash
  have hl : (parsePattern (go "/v1/")).segments.getLast? = some (.multi []) := by decide
  have hn : (parsePattern (go "/v1/")).segments.length = 2 := by decide
  refine findHandler_of_subtree main.mainRouter r
    (parsePattern (go "/v1/"), http.StripPrefix (go "/v1") main.wrappedV1)
    (parsePattern (go "/v1/"), http.StripPrefix (go "/v1") main.wrappedV1) hc ?_ ?_ ?_ ?_ ?_
  · rw [hesc]
    exact cleanPath_element pre base id hclean hbase hlen hhead hne hslash hdot hdotdot
  · rw [hall, hesc, hmatch]
  · rw [hall, hesc, hmatch2]
  · rw [hesc]
    exact exactMatch_multi_false _ _ [] hl (by rw [hn, hcnt.1, hcount]; decide)
  · rw [hesc]
    exact exactMatch_multi_false _ _ [] hl (by rw [hn, hcnt.2, hcount]; decide)


theorem serve_row (r : Request) (s : World) (X b q text : GoString) (handler : Handler)
    (hauth : r.Header.Get (go "Authorization") = go "Bearer " ++ X)
    (hdec : base64.DecodeString X = .ok b) (htext : text ≠ [])
    (hpath : r.URL.Path = go "/v1" ++ q) (hraw : r.URL.RawPath = [])
    (h1 : main.mainRouter.findHandler r = http.StripPrefix (go "/v1") main.wrappedV1)
    (h2 : ∀ ctx : Context,
      main.v1.findHandler (Request.WithContext { r with URL := { Path := q } } ctx) = handler)
    (h3 : ∀ (w : ResponseWriter) (r2 : Request) (st : World), handler w r2 st = w.Write text st) :
    (main.serve r s).resp = { wroteHeader := true, status := 200, body := text } := by
  unfold main.serve ServeMux.ServeHTTP
  rw [h1, StripPrefix_v1 _ _ _ _ q hpath hraw]
  show (Logging (IsAuthenticated main.v1.ServeHTTP) serverWriter _ _).resp = _
  refine Logging_IsAuthenticated_write main.v1.ServeHTTP text _ _ X b hauth hdec htext ?_ rfl
  intro w ctx st
  unfold ServeMux.ServeHTTP
  rw [h2, h3]

theorem serve_element (m pre1 base1 pre2 base2 : GoString) (handler : Handler)
    (text : GoString) (header : Header) (ctx : Context) (s : World) (X b id : GoString)
    (hauth : Header.Get header (go "Authorization") = go "Bearer " ++ X)
    (hdec : base64.DecodeString X = .ok b) (htext : text ≠ [])
    (hc : m ≠ go "CONNECT") (h0 : m ≠ [])
    (hsplit : pre1 = go "/v1" ++ pre2)
    (hesc1 : url.escape pre1 = pre1) (hesc2 : url.escape pre2 = pre2)
    (hclean1 : ∀ eid : GoString, path.Clean (pre1 ++ eid) = path.cleanLoop .outer eid base1)
    (hbase1 : base1 ++ [47] = pre1) (hlen1 : base1.length ≠ 1)
    (hhead1 : pre1.head? = some 47) (hcount : pre1.count 47 = 3)
    (hm1 : ∀ eid : GoString, main.mainRouter.matchMethod [] (pre1 ++ eid) =
      some (parsePattern (go "/v1/"), http.StripPrefix (go "/v1") main.wrappedV1))
    (hclean2 : ∀ eid : GoString, path.Clean (pre2 ++ eid) = path.cleanLoop .outer eid base2)
    (hbase2 : base2 ++ [47] = pre2) (hlen2 : base2.length ≠ 1)
    (hhead2 : pre2.head? = some 47)
    (pat : pattern)
    (hmatch : ∀ eid : GoString, eid ≠ [] → (47 : Byte) ∉ eid → pathUnescape eid ≠ go "/" →
      main.v1.matchMethod m (pre2 ++ eid) = some (pat, handler))
    (hexact : ∀ eid : GoString, exactMatch (some (pat, handler)) (pre2 ++ eid) = true)
    (h3 : ∀ (w : ResponseWriter) (r2 : Request) (st : World), handler w r2 st = w.Write text st)
    (hne : id ≠ []) (hslash : (47 : Byte) ∉ id) (hdot : id ≠ go ".") (hdotdot : id ≠ go "..") :
    (main.serve { Method := m, URL := { Path := pre1 ++ id }, Header := header, ctx := ctx }
      s).resp = { wroteHeader := true, status := 200, body := text } := by
  obtain ⟨ene, eslash, edot, edotdot, eun⟩ := url.escape_element id hne hslash hdot hdotdot
  have hh1 : ∀ t : GoString, (pre1 ++ t).head? = some 47 := by
    intro t
    cases pre1 with
    | nil => simp at hhead1
    | cons c u => exact hhead1
  have hh2 : ∀ t : GoString, (pre2 ++ t).head? = some 47 := by
    intro t
    cases pre2 with
    | nil => simp at hhead2
    | cons c u => exact hhead2
  refine serve_row _ s X b (pre2 ++ id) text handler hauth hdec htext ?_ rfl ?_ ?_ h3
  · show pre1 ++ id = _
    rw [hsplit, List.append_assoc]
  · refine mainRouter_findHandler _ pre1 base1 (url.escape id) hc
      (URL.EscapedPath_of_path pre1 id hesc1 hhead1) (hclean1 _) hbase1 hlen1 (hh1 _) hcount
      (hm1 _) ?_ ene eslash edot edotdot
    rw [List.append_assoc]
    exact hm1 _
  · intro ctx2
    have he : (Request.WithContext
        { Method := m, URL := { Path := pre2 ++ id }, Header := header, ctx := ctx }
        ctx2).URL.EscapedPath = pre2 ++ url.escape id :=
      URL.EscapedPath_of_path pre2 id hesc2 hhead2
    refine findHandler_of_exact main.v1 _ (pat, handler) hc h0 ?_ ?_ ?_
    · rw [he]
      exact cleanPath_element _ _ _ (hclean2 _) hbase2 hlen2 (hh2 _) ene eslash edot edotdot
    · rw [he]
      exact hmatch _ ene eslash eun
    · rw [he]
      exact hexact _

theorem serve_fixed (m p q text : GoString) (handler : Handler) (header : Header)
    (ctx : Context) (s : World) (X b : GoString)
    (hauth : Header.Get header (go "Authorization") = go "Bearer " ++ X)
    (hdec : base64.DecodeString X = .ok b) (htext : text ≠ [])
    (hpath : p = go "/v1" ++ q)
    (h1 : ∀ (hd : Header) (c : Context),
      main.mainRouter.findHandler { Method := m, URL := { Path := p }, Header := hd, ctx := c } =
        http.StripPrefix (go "/v1") main.wrappedV1)
    (h2 : ∀ (hd : Header) (c : Context),
      main.v1.findHandler { Method := m, URL := { Path := q }, Header := hd, ctx := c } = handler)
    (h3 : ∀ (w : ResponseWriter) (r2 : Request) (st : World), handler w r2 st = w.Write text st) :
    (main.serve { Method := m, URL := { Path := p }, Header := header, ctx := ctx } s).resp =
      { wroteHeader := true, status := 200, body := text } :=
  serve_row _ s X b q text handler hauth hdec htext hpath rfl (h1 header ctx)
    (fun c => h2 header c) h3

theorem wrappedWriter.WriteHeader_clock (a : Nat) (c : Int) (st : World) :
    ((wrappedWriter.mk serverWriter a).WriteHeader c st).clock = st.clock := by
  simp only [wrappedWriter.WriteHeader, serverWriter, response.WriteHeader, log.Println]
  split_ifs <;> rfl

theorem wrappedWriter.foldl_clock (a : Nat) (codes : List Int) :
    ∀ st : World,
      (codes.foldl (fun st c => (wrappedWriter.mk serverWriter a).WriteHeader c st) st).clock =
        st.clock := by
  induction codes with
  | nil => intro st; rfl
  | cons c cs ih =>
    intro st
    rw [List.foldl_cons, ih, wrappedWriter.WriteHeader_clock]

theorem Logging_writeHeaders_log (codes : List Int) (r : Request) (s : World) :
    (Logging (writeHeaders codes) serverWriter r s).log.getLast? =
      some (middlewareLog (codes.getLast?.getD 200) r (elapsed s)) := by
  unfold Logging writeHeaders
  simp only [log.Println, List.getLast?_append, List.getLast?_singleton, Option.or_some,
    time.Since, time.Now, wrappedWriter.toWriter]
  rw [wrappedWriter.foldl_clock, wrappedWriter.read_foldl _ _ _ (by simp)]
  simp [wrappedWriter.read, http.StatusOK, List.getD_eq_getElem?_getD, middlewareLog, elapsed]

theorem length_le_one_of_const {α β : Type} [DecidableEq β] (f : α → β) (c : β) :
    ∀ l : List α, (l.map f).Nodup → (∀ x ∈ l, f x = c) → l.length ≤ 1
  | [], _, _ => Nat.zero_le _
  | [_], _, _ => Nat.le_refl _
  | x :: y :: t, hnd, hc => by
    exfalso
    have hx := hc x (List.mem_cons_self _ _)
    have hy := hc y (List.mem_cons_of_mem _ (List.mem_cons_self _ _))
    simp only [List.map_cons, List.nodup_cons, List.mem_cons, not_or] at hnd
    exact hnd.1.1 (hx.trans hy.symm)

theorem matchPath_lit_head (segs : List segment) (path : GoString)
    (hlit : (match segs.head? with | some (.lit _) => true | _ => false) = true)
    (hm : matchPath segs path = true) :
    segs.head? = some (.lit (firstSegment path).1) := by
  cases segs with
  | nil => simp at hlit
  | cons seg rest =>
    cases seg with
    | lit t =>
      unfold matchPath at hm
      by_cases hp : path = []
      · simp [hp] at hm
      · simp only [if_neg hp, Bool.and_eq_true, decide_eq_true_eq] at hm
        simp [hm.1]
    | wild n => simp at hlit
    | multi n => simp at hlit

theorem v1_at_most_one_match (m path : GoString) :
    (main.v1.entries.filter fun e => decide (e.1.method = m) && matchPath e.1.segments path).length
      ≤ 1 := by
  refine length_le_one_of_const (fun e : pattern × Handler => (e.1.method, e.1.segments.head?))
    (m, some (.lit (firstSegment path).1)) _ ?_ ?_
  · refine List.Nodup.sublist (List.Sublist.map _ (List.filter_sublist _)) ?_
    decide
  · intro e he
    rw [List.mem_filter] at he
    have hall : ∀ e ∈ main.v1.entries,
        (match e.1.segments.head? with | some (.lit _) => true | _ => false) = true := by
      intro e he
      have h : main.v1.entries.all (fun e =>
          match e.1.segments.head? with | some (.lit _) => true | _ => false) = true := by rfl
      exact List.all_eq_true.mp h e he
    simp only [Bool.and_eq_true, decide_eq_true_eq] at he
    show (e.1.method, e.1.segments.head?) = _
    rw [he.2.1, matchPath_lit_head _ _ (hall e he.1) he.2.2]

theorem base64.skipNewlines_mem (c : Byte) (hc : ¬ (c = 10 ∨ c = 13)) :
    ∀ (rest : List Byte) (si : Nat), c ∈ rest → c ∈ (base64.skipNewlines rest si).1 := by
  intro rest
  induction rest with
  | nil => intro si h; exact absurd h (List.not_mem_nil _)
  | cons d t ih =>
    intro si h
    unfold base64.skipNewlines
    by_cases hd : d = 10 ∨ d = 13
    · rw [if_pos hd]
      rcases List.mem_cons.mp h with h | h
      · exact absurd (h ▸ hd) hc
      · exact ih _ h
    · rw [if_neg hd]
      exact h

theorem base64.decodeLoop_invalid_char (len : Nat) (c : Byte)
    (hmap : base64.decodeMap c = 0xff) (hpad : c ≠ base64.padChar) (hnl : ¬ (c = 10 ∨ c = 13)) :
    ∀ (X : List Byte) (si : Nat) (dbuf : List Nat) (out : List Byte), c ∈ X →
      ∃ e, base64.decodeLoop len X si dbuf out = .error e := by
  intro X
  induction X with
  | nil => intro si dbuf out h; exact absurd h (List.not_mem_nil _)
  | cons d t ih =>
    intro si dbuf out h
    unfold base64.decodeLoop
    by_cases hd : base64.decodeMap d ≠ 0xff
    · have hdc : c ≠ d := fun hcd => hd (hcd ▸ hmap)
      have ht : c ∈ t := by
        rcases List.mem_cons.mp h with h | h
        · exact absurd h hdc
        · exact h
      rw [if_pos hd]
      simp only []
      split_ifs
      · exact ih _ _ _ ht
      · exact ih _ _ _ ht
    · rw [if_neg hd]
      by_cases hdn : d = 10 ∨ d = 13
      · have ht : c ∈ t := by
          rcases List.mem_cons.mp h with h | h
          · exact absurd (h ▸ hdn) hnl
          · exact h
        rw [if_pos hdn]
        exact ih _ _ _ ht
      · rw [if_neg hdn]
        by_cases hdp : d ≠ base64.padChar
        · rw [if_pos hdp]; exact ⟨_, rfl⟩
        · rw [if_neg hdp]
          have hdp2 : d = base64.padChar := not_not.mp hdp
          have ht : c ∈ t := by
            rcases List.mem_cons.mp h with h | h
            · exact absurd (h.trans hdp2) hpad
            · exact h
          by_cases h2 : dbuf.length < 2
          · rw [if_pos h2]; exact ⟨_, rfl⟩
          · rw [if_neg h2]
            have hmem := base64.skipNewlines_mem c hnl t (si + 1) ht
            by_cases h3 : dbuf.length = 2
            · rw [if_pos h3]
              rcases hsk : base64.skipNewlines t (si + 1) with ⟨rest2, si2⟩
              rw [hsk] at hmem
              cases rest2 with
              | nil => exact ⟨_, rfl⟩
              | cons d2 rest3 =>
                simp only []
                by_cases hd2 : d2 ≠ base64.padChar
                · rw [if_pos hd2]; exact ⟨_, rfl⟩
                · rw [if_neg hd2]
                  have hd2p : d2 = base64.padChar := not_not.mp hd2
                  have ht3 : c ∈ rest3 := by
                    rcases List.mem_cons.mp hmem with h | h
                    · exact absurd (h.trans hd2p) hpad
                    · exact h
                  have hmem3 := base64.skipNewlines_mem c hnl rest3 (si2 + 1) ht3
                  rcases hsk3 : base64.skipNewlines rest3 (si2 + 1) with ⟨rest4, si4⟩
                  rw [hsk3] at hmem3
                  cases rest4 with
                  | nil => exact absurd hmem3 (List.not_mem_nil _)
                  | cons d4 rest5 => exact ⟨_, rfl⟩
            · rw [if_neg h3]
              rcases hsk : base64.skipNewlines t (si + 1) with ⟨rest2, si2⟩
              rw [hsk] at hmem
              cases rest2 with
              | nil => exact absurd hmem (List.not_mem_nil _)
              | cons d2 rest3 => exact ⟨_, rfl⟩

theorem base64.decodeLoop_short (len : Nat) :
    ∀ (X : List Byte) (si : Nat) (dbuf : List Nat) (out : List Byte),
      (∀ c ∈ X, base64.decodeMap c ≠ 0xff) → dbuf.length < 4 →
      (dbuf.length + X.length) % 4 ≠ 0 →
      ∃ e, base64.decodeLoop len X si dbuf out = .error e := by
  intro X
  induction X with
  | nil =>
    intro si dbuf out _ hlt hmod
    unfold base64.decodeLoop
    have h0 : dbuf.length ≠ 0 := by
      intro h0
      rw [h0] at hmod
      exact hmod rfl
    rw [if_neg h0]
    exact ⟨_, rfl⟩
  | cons d t ih =>
    intro si dbuf out hv hlt hmod
    have hd := hv d (List.mem_cons_self _ _)
    have ht : ∀ c ∈ t, base64.decodeMap c ≠ 0xff := fun c hc => hv c (List.mem_cons_of_mem _ hc)
    unfold base64.decodeLoop
    rw [if_pos hd]
    simp only [List.length_append, List.length_cons, List.length_nil] at hmod ⊢
    by_cases h4 : dbuf.length + (0 + 1) = 4
    · rw [if_pos h4]
      refine ih _ _ _ ht (by decide) ?_
      simp only [List.length_nil]
      omega
    · rw [if_neg h4]
      refine ih _ _ _ ht ?_ ?_
      · simp only [List.length_append, List.length_cons, List.length_nil]; omega
      · simp only [List.length_append, List.length_cons, List.length_nil]; omega

theorem encoded_dot_segment_is_served :
    (main.serve
        { Method := go "GET",
          URL := { Path := go "/v1/listing/..", RawPath := go "/v1/listing/%2e%2e" },
          Header := tokenHeader, ctx := .background }
        World.initial).resp = sent "Show by ID\n" := by
  decide

/-! ## The claims of the specification -/

/-- C1: `ChainMiddlewares(xs)(h)` is the right fold of application over `xs` onto `h`,
`m0(m1(...(m(n-1)(h))...))`: the first middleware is the outermost wrapper, and the empty chain
is the identity. -/
theorem ChainMiddlewares_eq_foldr (xs : List Middleware) (h : Handler) :
    ChainMiddlewares xs h = xs.foldr (fun m acc => m acc) h ∧
    ChainMiddlewares [] h = h ∧
    ∀ m : Middleware, ChainMiddlewares (m :: xs) h = m (ChainMiddlewares xs h) := by
  have key : ∀ ys : List Middleware, ChainMiddlewares ys h = ys.foldr (fun m acc => m acc) h := by
    intro ys
    unfold ChainMiddlewares
    rw [ChainMiddlewares.loop_eq_foldr ys ys.length (Nat.le_refl _) h, List.take_length]
  refine ⟨key xs, ?_, ?_⟩
  · rw [key]; rfl
  · intro m; rw [key, key]; rfl

/-- C2: when the `Authorization` header is absent or does not begin with `Bearer ` (byte for
byte), `IsAuthenticated(next)` does what `writeUnauthed` does, `WriteHeader(401)` then
`Write("Unauthorized")`, whatever `next` is: `next` is not called. On the response of the
server this gives status 401, body `Unauthorized` and no log record. -/
theorem IsAuthenticated_unauthorized_without_bearer (next : Handler) (w : ResponseWriter)
    (r : Request) (s : World)
    (h : r.Header.lookup (go "Authorization") = none ∨
      strings.HasPrefix (r.Header.Get (go "Authorization")) (go "Bearer ") = false) :
    IsAuthenticated next w r s = w.Write (go "Unauthorized") (w.WriteHeader 401 s) ∧
    (s.resp = response.fresh →
      (IsAuthenticated next serverWriter r s).resp =
        { wroteHeader := true, status := 401, body := go "Unauthorized" } ∧
      (IsAuthenticated next serverWriter r s).log = s.log) := by
  have hp : strings.HasPrefix (r.Header.Get (go "Authorization")) (go "Bearer ") = false := by
    rcases h with h | h
    · rw [Header.Get_absent _ _ h]; decide
    · exact h
  have hrun : ∀ w : ResponseWriter, IsAuthenticated next w r s = writeUnauthed w s := by
    intro w; simp [IsAuthenticated, hp]
  refine ⟨by rw [hrun]; rfl, fun hs => ?_⟩
  rw [hrun, writeUnauthed_fresh s hs]
  exact ⟨rfl, rfl⟩

/-- C2, at a request whose header has the prefix in lower case and a handler that would write a
body. -/
theorem IsAuthenticated_unauthorized_without_bearer_witness :
    (IsAuthenticated routeHandler.IndexAll serverWriter
        (request "GET" "/listings" (some "bearer YQ==") .background) World.initial).resp =
      { wroteHeader := true, status := 401, body := go "Unauthorized" } ∧
    (IsAuthenticated routeHandler.IndexAll serverWriter
        (request "GET" "/listings" (some "bearer YQ==") .background) World.initial).log = [] :=
  (IsAuthenticated_unauthorized_without_bearer routeHandler.IndexAll serverWriter
    (request "GET" "/listings" (some "bearer YQ==") .background) World.initial
    (Or.inr (by decide))).2 rfl

/-- C3: when the header is `Bearer X` and `X` is not valid base64 (`DecodeString` returns an
error), `IsAuthenticated(next)` does what `writeUnauthed` does and then logs the decode error,
whatever `next` is: `next` is not called. On the response of the server this gives status 401,
body `Unauthorized` and one log record, that of the decode error. Not valid in this sense are
every token with a byte outside the alphabet (other than `=`, CR and LF), and every token of
alphabet characters whose length is not a multiple of four. -/
theorem IsAuthenticated_unauthorized_undecodable (next : Handler) (w : ResponseWriter)
    (r : Request) (s : World) (X : GoString) (e : base64.CorruptInputError)
    (hauth : r.Header.Get (go "Authorization") = go "Bearer " ++ X)
    (hdec : base64.DecodeString X = .error e) :
    IsAuthenticated next w r s =
      log.Println (decodeErrorLog e) (w.Write (go "Unauthorized") (w.WriteHeader 401 s)) ∧
    (s.resp = response.fresh →
      (IsAuthenticated next serverWriter r s).resp =
        { wroteHeader := true, status := 401, body := go "Unauthorized" } ∧
      (IsAuthenticated next serverWriter r s).log = s.log ++ [decodeErrorLog e]) ∧
    (∀ Y : GoString,
      (∃ c ∈ Y, base64.decodeMap c = 0xff ∧ c ≠ base64.padChar ∧ ¬ (c = 10 ∨ c = 13)) →
      ∃ e2, base64.DecodeString Y = .error e2) ∧
    (∀ Y : GoString, (∀ c ∈ Y, base64.decodeMap c ≠ 0xff) → Y.length % 4 ≠ 0 →
      ∃ e2, base64.DecodeString Y = .error e2) := by
  have hrun : ∀ w : ResponseWriter,
      IsAuthenticated next w r s = log.Println (decodeErrorLog e) (writeUnauthed w s) := by
    intro w
    simp [IsAuthenticated, hauth, strings.HasPrefix_append, strings.TrimPrefix_append, hdec,
      decodeErrorLog]
  refine ⟨by rw [hrun]; rfl, fun hs => ?_, ?_, ?_⟩
  · rw [hrun, writeUnauthed_fresh s hs]
    exact ⟨rfl, rfl⟩
  · rintro Y ⟨c, hc, hmap, hpad, hnl⟩
    exact base64.decodeLoop_invalid_char _ c hmap hpad hnl Y 0 [] [] hc
  · intro Y hY hlen
    exact base64.decodeLoop_short _ Y 0 [] [] hY (by decide) (by simpa using hlen)

/-- C3, at the two tokens the source gives as invalid: `!@#$%^&*()` (characters outside the
alphabet, error at byte 0) and `YWJjZA` (padding missing, error at byte 4). -/
theorem IsAuthenticated_unauthorized_undecodable_witness :
    ((IsAuthenticated routeHandler.IndexAll serverWriter
        (request "GET" "/listings" (some "Bearer !@#$%^&*()") .background) World.initial).resp =
      { wroteHeader := true, status := 401, body := go "Unauthorized" } ∧
    (IsAuthenticated routeHandler.IndexAll serverWriter
        (request "GET" "/listings" (some "Bearer !@#$%^&*()") .background) World.initial).log =
      [] ++ [decodeErrorLog ⟨0⟩]) ∧
    ((IsAuthenticated routeHandler.IndexAll serverWriter
        (request "GET" "/listings" (some "Bearer YWJjZA") .background) World.initial).resp =
      { wroteHeader := true, status := 401, body := go "Unauthorized" } ∧
    (IsAuthenticated routeHandler.IndexAll serverWriter
        (request "GET" "/listings" (some "Bearer YWJjZA") .background) World.initial).log =
      [] ++ [decodeErrorLog ⟨4⟩]) :=
  ⟨(IsAuthenticated_unauthorized_undecodable routeHandler.IndexAll serverWriter
      (request "GET" "/listings" (some "Bearer !@#$%^&*()") .background) World.initial
      (go "!@#$%^&*()") ⟨0⟩ (by decide) (by decide)).2.1 rfl,
   (IsAuthenticated_unauthorized_undecodable routeHandler.IndexAll serverWriter
      (request "GET" "/listings" (some "Bearer YWJjZA") .background) World.initial
      (go "YWJjZA") ⟨4⟩ (by decide) (by decide)).2.1 rfl⟩

/-- C4: when the header is `Bearer X` and `X` decodes to the bytes `b`, `IsAuthenticated(next)`
first calls `next`, once, with the writer `w` it was given and a request `req` that differs from
`r` in its context only; the context of `req` maps `AuthUserID` (`middleware.auth.userID`) to
the string `b` and every other key to what the context of `r` maps it to. What follows the call
reads the context of `r` itself. -/
theorem IsAuthenticated_calls_next_with_identity (next : Handler) (w : ResponseWriter)
    (r : Request) (s : World) (X b : GoString)
    (hauth : r.Header.Get (go "Authorization") = go "Bearer " ++ X)
    (hdec : base64.DecodeString X = .ok b) :
    ∃ req : Request,
      IsAuthenticated next w r s = IsAuthenticated.checkUser w r (next w req s) ∧
      req.Context.Value (.string (go "middleware.auth.userID")) = some (.string b) ∧
      (∀ k : Any, k ≠ .string (go "middleware.auth.userID") →
        req.Context.Value k = r.Context.Value k) ∧
      req.Method = r.Method ∧ req.URL = r.URL ∧ req.Header = r.Header := by
  refine ⟨r.WithContext (context.WithValue r.Context (.string AuthUserID) (.string b)),
    IsAuthenticated_of_decoded next w r s X b hauth hdec, ?_, ?_, rfl, rfl, rfl⟩
  · simp [Request.WithContext, Request.Context, context.WithValue, Context.Value, AuthUserID]
  · intro k hk
    have hk2 : ¬ (Any.string AuthUserID = k) := fun h => hk (h ▸ rfl)
    simp [Request.WithContext, Request.Context, context.WithValue, Context.Value, hk2]

/-- C4, at the token of the source. -/
theorem IsAuthenticated_calls_next_with_identity_witness :
    ∃ req : Request,
      IsAuthenticated routeHandler.IndexAll serverWriter
          (request "GET" "/listings" (some "Bearer bXlTZWNyZXRUb2tlbjEyMw==") .background)
          World.initial =
        IsAuthenticated.checkUser serverWriter
          (request "GET" "/listings" (some "Bearer bXlTZWNyZXRUb2tlbjEyMw==") .background)
          (routeHandler.IndexAll serverWriter req World.initial) ∧
      req.Context.Value (.string (go "middleware.auth.userID")) =
        some (.string (go "mySecretToken123")) ∧
      (∀ k : Any, k ≠ .string (go "middleware.auth.userID") →
        req.Context.Value k =
          (request "GET" "/listings" (some "Bearer bXlTZWNyZXRUb2tlbjEyMw==") .background).Context.Value
            k) ∧
      req.Method = go "GET" ∧ req.URL = { Path := go "/listings" } ∧
      req.Header = [(go "Authorization", [go "Bearer bXlTZWNyZXRUb2tlbjEyMw=="])] :=
  IsAuthenticated_calls_next_with_identity routeHandler.IndexAll serverWriter
    (request "GET" "/listings" (some "Bearer bXlTZWNyZXRUb2tlbjEyMw==") .background) World.initial
    (go "bXlTZWNyZXRUb2tlbjEyMw==") (go "mySecretToken123") (by decide) (by decide)

/-- C5: for every byte string `u`, the empty one included, a request carrying `Bearer ` followed
by the standard base64 encoding of `u` passes the gate: the token decodes to `u`, and `next` is
called with a request whose context holds the string `u` under `AuthUserID`. -/
theorem IsAuthenticated_accepts_encoded_identity (u : List Byte) (next : Handler)
    (w : ResponseWriter) (r : Request) (s : World)
    (hauth : r.Header.Get (go "Authorization") = go "Bearer " ++ base64.EncodeToString u) :
    base64.DecodeString (base64.EncodeToString u) = .ok u ∧
    ∃ req : Request,
      IsAuthenticated next w r s = IsAuthenticated.checkUser w r (next w req s) ∧
      req.Context.Value (.string AuthUserID) = some (.string u) :=
  ⟨base64.DecodeString_EncodeToString u,
   r.WithContext (context.WithValue r.Context (.string AuthUserID) (.string u)),
   IsAuthenticated_of_decoded next w r s _ u hauth (base64.DecodeString_EncodeToString u),
   Context.Value_withValue _ _ _⟩

/-- C5, at the token of the source: `bXlTZWNyZXRUb2tlbjEyMw==` is the encoding of
`mySecretToken123`, and that is the identity the handler sees. -/
theorem IsAuthenticated_accepts_encoded_identity_witness :
    base64.EncodeToString (go "mySecretToken123") = go "bXlTZWNyZXRUb2tlbjEyMw==" ∧
    base64.DecodeString (base64.EncodeToString (go "mySecretToken123")) =
      .ok (go "mySecretToken123") ∧
    ∃ req : Request,
      IsAuthenticated routeHandler.IndexAll serverWriter
          (request "GET" "/listings" (some "Bearer bXlTZWNyZXRUb2tlbjEyMw==") .background)
          World.initial =
        IsAuthenticated.checkUser serverWriter
          (request "GET" "/listings" (some "Bearer bXlTZWNyZXRUb2tlbjEyMw==") .background)
          (routeHandler.IndexAll serverWriter req World.initial) ∧
      req.Context.Value (.string AuthUserID) = some (.string (go "mySecretToken123")) :=
  ⟨by decide,
   IsAuthenticated_accepts_encoded_identity (go "mySecretToken123") routeHandler.IndexAll
    serverWriter (request "GET" "/listings" (some "Bearer bXlTZWNyZXRUb2tlbjEyMw==") .background)
    World.initial (by decide)⟩

/-- C6 (as amended): through the server (`/v1` stripped once, then `Logging` and
`IsAuthenticated` around the router `v1`), a request with a valid base64 bearer token and a URL
whose `RawPath` is empty (`requestTo` builds such a URL: the path came in its default encoding)
is answered with status 200 and the fixed text of its route: `Index all` for GET `/v1/listings`
and `/v1/votes`, `Create new` for POST `/v1/listing` and `/v1/vote`, and on `/v1/listing/{id}`
and `/v1/vote/{id}` `Show by ID` for GET, `Update by ID` for PUT, `Destroy by ID` for DELETE,
for every `id` that is one non-empty segment other than `.` and `..`, whatever its bytes. No two
of the ten routes share their method and pattern. -/
theorem routes_serve_fixed_text (header : Header) (ctx : Context) (s : World) (X b : GoString)
    (hauth : Header.Get header (go "Authorization") = go "Bearer " ++ X)
    (hdec : base64.DecodeString X = .ok b) :
    ((main.serve (requestTo "GET" (go "/v1/listings") header ctx) s).resp = sent "Index all\n" ∧
      (main.serve (requestTo "GET" (go "/v1/votes") header ctx) s).resp = sent "Index all\n" ∧
      (main.serve (requestTo "POST" (go "/v1/listing") header ctx) s).resp = sent "Create new\n" ∧
      (main.serve (requestTo "POST" (go "/v1/vote") header ctx) s).resp = sent "Create new\n") ∧
    (∀ id : GoString, id ≠ [] → (47 : Byte) ∉ id → id ≠ go "." → id ≠ go ".." →
      (main.serve (requestTo "GET" (go "/v1/listing/" ++ id) header ctx) s).resp =
        sent "Show by ID\n" ∧
      (main.serve (requestTo "GET" (go "/v1/vote/" ++ id) header ctx) s).resp =
        sent "Show by ID\n" ∧
      (main.serve (requestTo "PUT" (go "/v1/listing/" ++ id) header ctx) s).resp =
        sent "Update by ID\n" ∧
      (main.serve (requestTo "PUT" (go "/v1/vote/" ++ id) header ctx) s).resp =
        sent "Update by ID\n" ∧
      (main.serve (requestTo "DELETE" (go "/v1/listing/" ++ id) header ctx) s).resp =
        sent "Destroy by ID\n" ∧
      (main.serve (requestTo "DELETE" (go "/v1/vote/" ++ id) header ctx) s).resp =
        sent "Destroy by ID\n") ∧
    (main.v1.entries.map fun e => e.1.str).Nodup ∧
    (main.v1.entries.map fun e => (e.1.method, e.1.segments)).Nodup ∧
    (main.v1.entries.map fun e => e.1.str) =
      [go "GET /listing/{id}", go "GET /listings", go "GET /vote/{id}", go "GET /votes",
        go "PUT /listing/{id}", go "PUT /vote/{id}", go "POST /listing", go "POST /vote",
        go "DELETE /listing/{id}", go "DELETE /vote/{id}"] := by
  refine ⟨⟨?_, ?_, ?_, ?_⟩, ?_, by decide, by decide, by decide⟩
  · exact serve_fixed (go "GET") (go "/v1/listings") (go "/listings") (go "Index all\n") routeHandler.IndexAll header ctx s X b
      hauth hdec (by decide) (by decide) (fun _ _ => rfl) (fun _ _ => rfl) (fun _ _ _ => rfl)
  · exact serve_fixed (go "GET") (go "/v1/votes") (go "/votes") (go "Index all\n") routeHandler.IndexAll header ctx s X b
      hauth hdec (by decide) (by decide) (fun _ _ => rfl) (fun _ _ => rfl) (fun _ _ _ => rfl)
  · exact serve_fixed (go "POST") (go "/v1/listing") (go "/listing") (go "Create new\n") routeHandler.Create header ctx s X b
      hauth hdec (by decide) (by decide) (fun _ _ => rfl) (fun _ _ => rfl) (fun _ _ _ => rfl)
  · exact serve_fixed (go "POST") (go "/v1/vote") (go "/vote") (go "Create new\n") routeHandler.Create header ctx s X b
      hauth hdec (by decide) (by decide) (fun _ _ => rfl) (fun _ _ => rfl) (fun _ _ _ => rfl)
  · intro id hne hslash hdot hdotdot
    refine ⟨?_, ?_, ?_, ?_, ?_, ?_⟩
    · exact serve_element (go "GET") (go "/v1/listing/") (go "/v1/listing") (go "/listing/") (go "/listing")
        routeHandler.ShowByID (go "Show by ID\n") header ctx s X b id hauth hdec (by decide) (by decide)
        (by decide) (by decide) (by decide) (by decide) (fun _ => rfl) (by decide) (by decide)
        (by decide) (by decide) (fun _ => rfl) (fun _ => rfl) (by decide) (by decide) (by decide)
        _ (fun eid h1 h2 h3 => v1_matchMethod_GET_listing eid h1 h2 h3) (fun _ => rfl)
        (fun _ _ _ => rfl) hne hslash hdot hdotdot
    · exact serve_element (go "GET") (go "/v1/vote/") (go "/v1/vote") (go "/vote/") (go "/vote")
        routeHandler.ShowByID (go "Show by ID\n") header ctx s X b id hauth hdec (by decide) (by decide)
        (by decide) (by decide) (by decide) (by decide) (fun _ => rfl) (by decide) (by decide)
        (by decide) (by decide) (fun _ => rfl) (fun _ => rfl) (by decide) (by decide) (by decide)
        _ (fun eid h1 h2 h3 => v1_matchMethod_GET_vote eid h1 h2 h3) (fun _ => rfl)
        (fun _ _ _ => rfl) hne hslash hdot hdotdot
    · exact serve_element (go "PUT") (go "/v1/listing/") (go "/v1/listing") (go "/listing/") (go "/listing")
        routeHandler.UpdateyID (go "Update by ID\n") header ctx s X b id hauth hdec (by decide) (by decide)
        (by decide) (by decide) (by decide) (by decide) (fun _ => rfl) (by decide) (by decide)
        (by decide) (by decide) (fun _ => rfl) (fun _ => rfl) (by decide) (by decide) (by decide)
        _ (fun eid h1 h2 h3 => v1_matchMethod_PUT_listing eid h1 h2 h3) (fun _ => rfl)
        (fun _ _ _ => rfl) hne hslash hdot hdotdot
    · exact serve_element (go "PUT") (go "/v1/vote/") (go "/v1/vote") (go "/vote/") (go "/vote")
        routeHandler.UpdateyID (go "Update by ID\n") header ctx s X b id hauth hdec (by decide) (by decide)
        (by decide) (by decide) (by decide) (by decide) (fun _ => rfl) (by decide) (by decide)
        (by decide) (by decide) (fun _ => rfl) (fun _ => rfl) (by decide) (by decide) (by decide)
        _ (fun eid h1 h2 h3 => v1_matchMethod_PUT_vote eid h1 h2 h3) (fun _ => rfl)
        (fun _ _ _ => rfl) hne hslash hdot hdotdot
    · exact serve_element (go "DELETE") (go "/v1/listing/") (go "/v1/listing") (go "/listing/") (go "/listing")
        routeHandler.DeleteByID (go "Destroy by ID\n") header ctx s X b id hauth hdec (by decide) (by decide)
        (by decide) (by decide) (by decide) (by decide) (fun _ => rfl) (by decide) (by decide)
        (by decide) (by decide) (fun _ => rfl) (fun _ => rfl) (by decide) (by decide) (by decide)
        _ (fun eid h1 h2 h3 => v1_matchMethod_DELETE_listing eid h1 h2 h3) (fun _ => rfl)
        (fun _ _ _ => rfl) hne hslash hdot hdotdot
    · exact serve_element (go "DELETE") (go "/v1/vote/") (go "/v1/vote") (go "/vote/") (go "/vote")
        routeHandler.DeleteByID (go "Destroy by ID\n") header ctx s X b id hauth hdec (by decide) (by decide)
        (by decide) (by decide) (by decide) (by decide) (fun _ => rfl) (by decide) (by decide)
        (by decide) (by decide) (fun _ => rfl) (fun _ => rfl) (by decide) (by decide) (by decide)
        _ (fun eid h1 h2 h3 => v1_matchMethod_DELETE_vote eid h1 h2 h3) (fun _ => rfl)
        (fun _ _ _ => rfl) hne hslash hdot hdotdot

/-- C6 (as amended), with the token of the source: `GET /v1/listings` and `GET /v1/listing/42`. -/
theorem routes_serve_fixed_text_witness :
    (main.serve (requestTo "GET" (go "/v1/listings") tokenHeader .background)
        World.initial).resp = sent "Index all\n" ∧
    (main.serve (requestTo "GET" (go "/v1/listing/" ++ go "42") tokenHeader .background)
        World.initial).resp = sent "Show by ID\n" :=
  ⟨(routes_serve_fixed_text tokenHeader .background World.initial
      (go "bXlTZWNyZXRUb2tlbjEyMw==") (go "mySecretToken123") (by decide) (by decide)).1.1,
   ((routes_serve_fixed_text tokenHeader .background World.initial
      (go "bXlTZWNyZXRUb2tlbjEyMw==") (go "mySecretToken123") (by decide) (by decide)).2.1
      (go "42") (by decide) (by decide) (by decide) (by decide)).1⟩

/-- C6 as stated fails at two requests with a valid token whose method and path are those of
the row `GET /listing/{id}`. `..` is a non-empty single segment, and `GET /v1/listing/..` is
answered by the multiplexer with a redirection (status 301) to the cleaned path `/v1/`; no
handler of the chain runs. And `GET /%761/listing/42`, whose path is `/v1/listing/42` with the
raw path `/%761/listing/42`, is answered 404 by `StripPrefix`, as the raw path does not begin
with `/v1`. Neither gets `Show by ID`. -/
theorem dot_segment_is_redirected :
    ((main.serve (requestTo "GET" (go "/v1/listing/" ++ go "..") tokenHeader .background)
        World.initial).resp =
      { wroteHeader := true, status := 301,
        body := go "<a href=\"/v1/\">Moved Permanently</a>.\n\n" } ∧
    (main.serve (requestTo "GET" (go "/v1/listing/" ++ go "..") tokenHeader .background)
        World.initial).resp.body ≠ go "Show by ID\n" ∧
    (main.serve (requestTo "GET" (go "/v1/listing/" ++ go "..") tokenHeader .background)
        World.initial).log = []) ∧
    ((main.serve
        { Method := go "GET",
          URL := { Path := go "/v1/listing/" ++ go "42", RawPath := go "/%761/listing/42" },
          Header := tokenHeader, ctx := .background }
        World.initial).resp =
      { wroteHeader := true, status := 404, body := go "404 page not found\n" } ∧
    (main.serve
        { Method := go "GET",
          URL := { Path := go "/v1/listing/" ++ go "42", RawPath := go "/%761/listing/42" },
          Header := tokenHeader, ctx := .background }
        World.initial).resp.body ≠ go "Show by ID\n") := by
  decide

/-- C7 (as amended): around any handler `h`, a request that fails authentication on a response
not yet written gets exactly one record of `Logging`, with status 401, and it is the last one.
It is the only record when the header is absent or lacks the `Bearer ` prefix; when the token is
not valid base64 the decode-error record of `IsAuthenticated` precedes it, two records in all. -/
theorem failed_auth_log_records (h : Handler) (r : Request) (s : World)
    (hfresh : s.resp.wroteHeader = false) :
    ((r.Header.lookup (go "Authorization") = none ∨
        strings.HasPrefix (r.Header.Get (go "Authorization")) (go "Bearer ") = false) →
      (chainServe h r s).log = s.log ++ [middlewareLog 401 r (elapsed s)]) ∧
    (∀ (X : GoString) (e : base64.CorruptInputError),
      r.Header.Get (go "Authorization") = go "Bearer " ++ X →
      base64.DecodeString X = .error e →
      (chainServe h r s).log = s.log ++ [decodeErrorLog e, middlewareLog 401 r (elapsed s)]) := by
  constructor
  · intro hh
    have hp : strings.HasPrefix (r.Header.Get (go "Authorization")) (go "Bearer ") = false := by
      rcases hh with hh | hh
      · rw [Header.Get_absent _ _ hh]; decide
      · exact hh
    rw [chainServe_eq, Logging_of_writeUnauthed (IsAuthenticated h) r s [] ?_ hfresh]
    · simp
    · intro w st
      rw [IsAuthenticated_of_no_bearer h w r st hp]
      simp
  · intro X e hauth hdec
    rw [chainServe_eq,
      Logging_of_writeUnauthed (IsAuthenticated h) r s [decodeErrorLog e] ?_ hfresh]
    · simp
    · intro w st
      rw [IsAuthenticated_of_decode_error h w r st X e hauth hdec]
      rfl

/-- C7 (as amended), at a request without the header and at one with the token `YWJjZA`. -/
theorem failed_auth_log_records_witness :
    (chainServe routeHandler.IndexAll (request "GET" "/listings" none .background)
        World.initial).log =
      [] ++ [middlewareLog 401 (request "GET" "/listings" none .background) 0] ∧
    (chainServe routeHandler.IndexAll (request "GET" "/listings" (some "Bearer YWJjZA") .background)
        World.initial).log =
      [] ++ [decodeErrorLog ⟨4⟩,
        middlewareLog 401 (request "GET" "/listings" (some "Bearer YWJjZA") .background) 0] :=
  ⟨(failed_auth_log_records routeHandler.IndexAll (request "GET" "/listings" none .background)
      World.initial rfl).1 (Or.inl rfl),
   (failed_auth_log_records routeHandler.IndexAll
      (request "GET" "/listings" (some "Bearer YWJjZA") .background) World.initial rfl).2
      (go "YWJjZA") ⟨4⟩ (by decide) (by decide)⟩

/-- C7 as stated fails: a request whose token is not valid base64 (`YWJjZA`) leaves two log
records, not one. -/
theorem failed_auth_two_log_records :
    (chainServe routeHandler.IndexAll (request "GET" "/listings" (some "Bearer YWJjZA") .background)
        World.initial).log.length = 2 ∧
    ¬ (chainServe routeHandler.IndexAll
        (request "GET" "/listings" (some "Bearer YWJjZA") .background)
        World.initial).log.length = 1 := by
  decide

/-- C8, at `GET /v1/listings` with the token of the source: the client is sent status 200 with
the body `Index all`, and the record of `Logging` shows status 400. -/
theorem logged_status_differs_from_sent_status :
    (main.serve (request "GET" "/v1/listings" (some "Bearer bXlTZWNyZXRUb2tlbjEyMw==") .background)
        World.initial).resp =
      { wroteHeader := true, status := 200, body := go "Index all\n" } ∧
    (main.serve (request "GET" "/v1/listings" (some "Bearer bXlTZWNyZXRUb2tlbjEyMw==") .background)
        World.initial).log.getLast? =
      some [.str (go "Middleware Log:"), .int 400, .str (go "GET"), .str (go "/listings"),
        .dur 0] := by
  decide

/-- C9 (as amended): the field `statusCode` of a wrapper created by `Logging` starts at 200 and
is assigned by every `WriteHeader` call: after any sequence of calls with codes in 100..999 (the
codes with which a call returns) it holds the argument of the last call, 200 when there is
none, and that is the status in the record `Logging` writes after these calls. -/
theorem statusCode_is_last_write (codes : List Int) (s : World) (r : Request)
    (hvalid : ∀ c ∈ codes, 100 ≤ c ∧ c ≤ 999) :
    statusCodeAfter codes s = codes.getLast?.getD 200 ∧
    statusCodeAfter [] s = 200 ∧
    (∀ c : Int, 100 ≤ c → c ≤ 999 → statusCodeAfter (codes ++ [c]) s = c) ∧
    (Logging (writeHeaders codes) serverWriter r s).log.getLast? =
      some (middlewareLog (codes.getLast?.getD 200) r (elapsed s)) := by
  have key : ∀ cs : List Int, statusCodeAfter cs s = cs.getLast?.getD 200 := by
    intro cs
    unfold statusCodeAfter
    simp only []
    rw [wrappedWriter.read_foldl _ _ _ (by simp)]
    simp [wrappedWriter.read, http.StatusOK, List.getD_eq_getElem?_getD]
  have _ := hvalid
  refine ⟨key codes, ?_, ?_, Logging_writeHeaders_log codes r s⟩
  · rw [key]; rfl
  · intro c _ _; rw [key]; simp

/-- C9 (as amended), at `WriteHeader(401)` then `WriteHeader(400)`: the field holds 400 and
`Logging` logs 400. -/
theorem statusCode_is_last_write_witness :
    statusCodeAfter [401, 400] World.initial = 400 ∧
    (Logging (writeHeaders [401, 400]) serverWriter (request "GET" "/listings" none .background)
        World.initial).log.getLast? =
      some (middlewareLog 400 (request "GET" "/listings" none .background)
        (elapsed World.initial)) :=
  ⟨(statusCode_is_last_write [401, 400] World.initial
      (request "GET" "/listings" none .background) (by decide)).1,
   (statusCode_is_last_write [401, 400] World.initial
      (request "GET" "/listings" none .background) (by decide)).2.2.2⟩

/-- C9 as stated fails: after `WriteHeader(401)` then `WriteHeader(400)` the field holds 400,
not the argument 401 of the first call, while the response keeps the status 401. -/
theorem statusCode_not_first_write :
    statusCodeAfter [401, 400] World.initial = 400 ∧
    statusCodeAfter [401, 400] World.initial ≠ ([401, 400] : List Int).head?.getD 200 ∧
    (Logging (writeHeaders [401, 400]) serverWriter (request "GET" "/listings" none .background)
      World.initial).resp.status = 401 := by
  decide

/-- C10 (as amended): for a request that passes authentication and whose own context holds no
string under `AuthUserID`, what `IsAuthenticated` does after `next` has returned is: log
`Invalid user ID`, call `WriteHeader(400)` on the writer, log `Creating comment for user:` with
the empty string. -/
theorem IsAuthenticated_invalid_user_after_next (next : Handler) (w : ResponseWriter)
    (r : Request) (s : World) (X b : GoString)
    (hauth : r.Header.Get (go "Authorization") = go "Bearer " ++ X)
    (hdec : base64.DecodeString X = .ok b)
    (hctx : ∀ u : GoString, r.Context.Value (.string AuthUserID) ≠ some (.string u)) :
    IsAuthenticated next w r s =
      log.Println [.str (go "Creating comment for user:"), .str []]
        (w.WriteHeader 400
          (log.Println [.str (go "Invalid user ID")]
            (next w (r.WithContext (context.WithValue r.Context (.string AuthUserID) (.string b)))
              s))) := by
  rw [IsAuthenticated_of_decoded next w r s X b hauth hdec]
  unfold IsAuthenticated.checkUser
  have hassert : assertString (r.Context.Value (.string AuthUserID)) = ([], false) := by
    cases hv : r.Context.Value (.string AuthUserID) with
    | none => rfl
    | some v =>
      cases v with
      | string u => exact absurd hv (hctx u)
      | other t x => rfl
  rw [hassert]
  rfl

/-- C10 (as amended), at the token of the source on a request with an empty context. -/
theorem IsAuthenticated_invalid_user_after_next_witness :
    IsAuthenticated routeHandler.IndexAll serverWriter
        (request "GET" "/listings" (some "Bearer bXlTZWNyZXRUb2tlbjEyMw==") .background)
        World.initial =
      log.Println [.str (go "Creating comment for user:"), .str []]
        (serverWriter.WriteHeader 400
          (log.Println [.str (go "Invalid user ID")]
            (routeHandler.IndexAll serverWriter
              ((request "GET" "/listings" (some "Bearer bXlTZWNyZXRUb2tlbjEyMw==")
                .background).WithContext
                (context.WithValue
                  (request "GET" "/listings" (some "Bearer bXlTZWNyZXRUb2tlbjEyMw==")
                    .background).Context
                  (.string AuthUserID) (.string (go "mySecretToken123"))))
              World.initial))) :=
  IsAuthenticated_invalid_user_after_next routeHandler.IndexAll serverWriter
    (request "GET" "/listings" (some "Bearer bXlTZWNyZXRUb2tlbjEyMw==") .background)
    World.initial (go "bXlTZWNyZXRUb2tlbjEyMw==") (go "mySecretToken123") (by decide) (by decide)
    (by intro u; exact fun h => nomatch h)

/-- C10 as stated fails: a request that passes authentication and whose context already holds
an identity under `AuthUserID` passes the check after `next`; the log has the single record
`Creating comment for user: alice`, so there is neither `Invalid user ID` nor a call of
`WriteHeader(400)` (which the committed response would have answered with a record). -/
theorem IsAuthenticated_valid_user_after_next :
    (IsAuthenticated routeHandler.IndexAll serverWriter identifiedRequest World.initial).log =
      [[.str (go "Creating comment for user:"), .str (go "alice")]] ∧
    [LogArg.str (go "Invalid user ID")] ∉
      (IsAuthenticated routeHandler.IndexAll serverWriter identifiedRequest World.initial).log := by
  decide

end Routing
